import Mathlib

/-!
# simple-csi-driver: the NFS volume lifecycle controller

A shallow embedding of `internal/nfs` and `internal/idempotency`.

Go strings are modelled as Lean `String`s (sequences of Unicode code points).
The requests arrive as protobuf `string` fields, which are valid UTF-8, and the
separator `#` and the path separator `/` are ASCII, so splitting and trimming on
code points agrees with Go's byte-level behaviour.
-/

namespace SimpleCsi

/-! ## Go library functions used by the driver -/

/-- Go `strings.Split(s, sep)` on character lists, for a non-empty `sep`.
`skip` counts the characters of a separator occurrence that are still to be
consumed; the components are the pieces between successive leftmost
occurrences of `sep`. -/
def splitChars (sep : List Char) : Nat → List Char → List (List Char)
  | _, [] => [[]]
  | skip + 1, _ :: cs => splitChars sep skip cs
  | 0, c :: cs =>
    if sep.isPrefixOf (c :: cs) then [] :: splitChars sep (sep.length - 1) cs
    else
      match splitChars sep 0 cs with
      | [] => [[c]]
      | h :: t => (c :: h) :: t

/-- Go `strings.Split(s, sep)`: with an empty separator the string is exploded
into its code points, otherwise it is cut at every occurrence of `sep`. -/
def stringsSplit (s sep : String) : List String :=
  if sep.data = [] then s.data.map (fun c => String.mk [c])
  else (splitChars sep.data 0 s.data).map String.mk

/-- Concatenation of character lists with `sep` between consecutive ones. -/
def joinChars (sep : List Char) : List (List Char) → List Char
  | [] => []
  | [a] => a
  | a :: b :: rest => a ++ sep ++ joinChars sep (b :: rest)

/-- Go `strings.Join(elems, sep)`. -/
def stringsJoin (elems : List String) (sep : String) : String :=
  String.mk (joinChars sep.data (elems.map String.data))

/-- Go `strings.Trim(s, cutset)`: drops every leading and every trailing code
point that occurs in `cutset`. -/
def stringsTrim (s cutset : String) : String :=
  String.mk
    ((s.data.dropWhile (fun c => cutset.data.contains c)).rdropWhile
      (fun c => cutset.data.contains c))

/-- Go `strings.Contains(s, substr)`. -/
def stringsContains (s substr : String) : Bool :=
  s.data.tails.any (fun t => substr.data.isPrefixOf t)

/-! ## Go maps -/

/-- A Go `map[string]V`: an association list with one entry per key. The order
of the list is the order in which a `range` loop visits the entries. -/
abbrev GoMap (V : Type) := List (String × V)

/-- The comma-ok read `v, ok := m[k]`. -/
def GoMap.find {V : Type} (m : GoMap V) (k : String) : Option V :=
  List.lookup k m

/-- The test `_, ok := m[k]`. -/
def GoMap.has {V : Type} (m : GoMap V) (k : String) : Bool :=
  (m.find k).isSome

/-- The read `m[k]` of a string-valued map: the zero value `""` for an absent key. -/
def GoMap.get (m : GoMap String) (k : String) : String :=
  (m.find k).getD ""

/-- The assignment `m[k] = v`. -/
def GoMap.set {V : Type} (m : GoMap V) (k : String) (v : V) : GoMap V :=
  if m.has k then m.map (fun e => if e.1 = k then (k, v) else e) else m ++ [(k, v)]

/-- The builtin `delete(m, k)`. -/
def GoMap.delete {V : Type} (m : GoMap V) (k : String) : GoMap V :=
  m.filter (fun e => e.1 ≠ k)

/-! ## internal/nfs/constants.go -/

def nfsWorkingDir : String := "/tmp"
def seperator : String := "#"
def mountPermissionKey : String := "mountPermission"
def serverKey : String := "server"
def basedirKey : String := "basedir"
def subdirKey : String := "subdir"

/-! ## The volume identifier codec (internal/nfs/controllerserver.go) -/

/-- The function `getVolIdFromParams`. -/
def getVolIdFromParams (parameters : GoMap String) : String :=
  let server := stringsTrim (parameters.get serverKey) "/"
  let basedir := stringsTrim (parameters.get basedirKey) "/"
  let subDir := stringsTrim (parameters.get subdirKey) "/"
  let volIdElements := [server, basedir, subDir]
  stringsJoin volIdElements seperator

/-- The function `getParamsFromVolId`; the last component is the returned `error`. -/
def getParamsFromVolId (volId : String) : String × String × String × Option String :=
  let volIdElements := stringsSplit volId seperator
  match volIdElements with
  | [a, b, c] => (a, b, c, none)
  | _ => ("", "", "", some "invalid volume ID which cannot be parsed")

/-- The spec's wording of trimming: `t` is `s` with every leading and every
trailing `/` removed. -/
def IsSlashTrim (s t : String) : Prop :=
  ∃ n m : Nat, s.data = List.replicate n '/' ++ t.data ++ List.replicate m '/' ∧
    t.data.head? ≠ some '/' ∧ t.data.getLast? ≠ some '/'

/-! ## Paths, numbers and letter case from the Go library -/

/-- One element of `filepath.Clean`: empty and `.` elements are dropped, `..`
removes the element before it, is dropped at the root and is kept at the front
of a relative path. `stack` holds the elements kept so far, last one first. -/
def cleanStep (rooted : Bool) (stack : List String) (e : String) : List String :=
  if e = "" ∨ e = "." then stack
  else if e = ".." then
    match stack with
    | [] => if rooted then [] else [".."]
    | top :: rest => if top = ".." then ".." :: top :: rest else rest
  else e :: stack

/-- Go `filepath.Clean` for slash-separated (Unix) paths. -/
def filepathClean (path : String) : String :=
  if path = "" then "."
  else
    let rooted := path.data.head? = some '/'
    let stack := (stringsSplit path "/").foldl (cleanStep rooted) []
    let body := stringsJoin stack.reverse "/"
    if rooted then "/" ++ body else if body = "" then "." else body

/-- Go `filepath.Join`: the elements from the first non-empty one on are joined
with `/` and cleaned; without a non-empty element the result is empty. -/
def filepathJoin (elem : List String) : String :=
  match elem.dropWhile (fun e => e = "") with
  | [] => ""
  | e :: es => filepathClean (stringsJoin (e :: es) "/")

deriving instance DecidableEq for Except

/-- The two errors of `strconv.ParseUint`. -/
inductive ParseErr where
  | ErrSyntax
  | ErrRange
  deriving DecidableEq, Repr

/-- The value of a digit character in `strconv.ParseUint`: `0`-`9`, then the
letters in either case from 10 on. -/
def digitVal (c : Char) : Option Nat :=
  if 48 ≤ c.toNat ∧ c.toNat ≤ 57 then some (c.toNat - 48)
  else if 97 ≤ (c.toNat ||| 32) ∧ (c.toNat ||| 32) ≤ 122 then some ((c.toNat ||| 32) - 97 + 10)
  else none

/-- The digit loop of `strconv.ParseUint` on 64-bit unsigned arithmetic. -/
def parseUintLoop (base maxVal : Nat) : List Char → Nat → Except ParseErr Nat
  | [], n => .ok n
  | c :: cs, n =>
    match digitVal c with
    | none => .error .ErrSyntax
    | some d =>
      if d ≥ base then .error .ErrSyntax
      else if n ≥ (2 ^ 64 - 1) / base + 1 then .error .ErrRange
      else
        let n0 := (n * base) % 2 ^ 64
        let n1 := (n0 + d) % 2 ^ 64
        if n1 < n0 ∨ n1 > maxVal then .error .ErrRange
        else parseUintLoop base maxVal cs n1

/-- Go `strconv.ParseUint(s, base, bitSize)` for an explicit base between 2 and
36 (no base prefix, no underscores, no sign) and a bit size between 1 and 64. -/
def strconvParseUint (s : String) (base bitSize : Nat) : Except ParseErr Nat :=
  if s = "" then .error .ErrSyntax else parseUintLoop base (2 ^ bitSize - 1) s.data 0

/-! ## The host: mount utility, file system and library texts -/

/-- An error returned by the operating system or the mount utility, with its
text and the classes `os.IsNotExist` and `os.IsPermission` test for. -/
structure HostErr where
  msg : String
  isNotExist : Bool
  isPermission : Bool
  deriving DecidableEq, Repr

/-- The calls the driver makes to the host. -/
inductive Call where
  | isLikelyNotMountPoint (path : String)
  | mkdirAll (path : String) (perm : Nat)
  | mount (source target fstype : String) (options : List String)
  | lstat (path : String)
  | chmod (path : String) (mode : Nat)
  | cleanupMountPoint (path : String)
  | removeAll (path : String)
  deriving DecidableEq, Repr

/-- What the host answers to a call: the error if any, the boolean of
`IsLikelyNotMountPoint` and the file mode of `os.Lstat`. -/
structure Reply where
  err : Option HostErr
  notMnt : Bool
  mode : Nat
  deriving DecidableEq, Repr

/-- The environment of the driver. `reply` answers a host call given the calls
made before it (oldest first); the other fields are library functions whose
tables are outside the repository: `unicode.ToLower` on non-ASCII code points,
the text of a `*strconv.NumError`, and `fmt.Sprintf` of a format without
operands. -/
structure Host where
  reply : List Call → Call → Reply
  unicodeToLower : Char → Char
  numErrorText : String → ParseErr → String
  sprintf : String → String

/-- Performs a host call: the answer, and the trace extended by the call. -/
def Host.call (h : Host) (c : Call) (trace : List Call) : Reply × List Call :=
  (h.reply trace c, trace ++ [c])

/-- Go `strings.ToLower`. -/
def stringsToLower (h : Host) (s : String) : String :=
  String.mk (s.data.map (fun c => if c.toNat < 128 then c.toLower else h.unicodeToLower c))

/-! ## gRPC status -/

/-- The gRPC codes the driver returns. -/
inductive Code where
  | InvalidArgument
  | Aborted
  | FailedPrecondition
  | Internal
  | PermissionDenied
  | NotFound
  | Unimplemented
  deriving DecidableEq, Repr

/-- The method `codes.Code.String`. -/
def Code.String : Code → String
  | .InvalidArgument => "InvalidArgument"
  | .Aborted => "Aborted"
  | .FailedPrecondition => "FailedPrecondition"
  | .Internal => "Internal"
  | .PermissionDenied => "PermissionDenied"
  | .NotFound => "NotFound"
  | .Unimplemented => "Unimplemented"

/-- The error made by `status.Error(code, msg)`. -/
structure Status where
  code : Code
  msg : String
  deriving DecidableEq, Repr

/-- The method `Error()` of a status error. -/
def Status.Error (e : Status) : String :=
  "rpc error: code = " ++ e.code.String ++ " desc = " ++ e.msg

/-! ## internal/idempotency/idempotency.go -/

/-- The struct `Idempotency`; the lock only serialises the single map accesses
and is not modelled. -/
structure Idempotency where
  processing : GoMap Bool
  deriving DecidableEq, Repr

def NewIdempotency : Idempotency := ⟨[]⟩

def Idempotency.IsProcessing (i : Idempotency) (volumeId : String) : Bool :=
  i.processing.has volumeId

def Idempotency.AddProcessing (i : Idempotency) (volumeId : String) : Idempotency :=
  ⟨i.processing.set volumeId true⟩

def Idempotency.RemoveProcessing (i : Idempotency) (volumeId : String) : Idempotency :=
  ⟨i.processing.delete volumeId⟩

/-! ## internal/nfs/nodeserver.go -/

/-- The access type of a `csi.VolumeCapability`. -/
inductive AccessType where
  | unset
  | mount (mountFlags : List String)
  | block
  deriving DecidableEq, Repr

/-- The message `csi.VolumeCapability`, as far as the driver reads it. -/
structure VolumeCapability where
  accessType : AccessType
  deriving DecidableEq, Repr

/-- The chain `GetMount().GetMountFlags()`: nil unless the access type is mount. -/
def VolumeCapability.getMountFlags (c : VolumeCapability) : List String :=
  match c.accessType with
  | .mount flags => flags
  | _ => []

/-- The getter `GetBlock() != nil`. -/
def VolumeCapability.isBlock (c : VolumeCapability) : Bool :=
  match c.accessType with
  | .block => true
  | _ => false

structure NodePublishVolumeRequest where
  VolumeId : String
  TargetPath : String
  VolumeCapability : Option VolumeCapability
  Readonly : Bool
  VolumeContext : GoMap String
  deriving DecidableEq, Repr

structure NodeUnpublishVolumeRequest where
  VolumeId : String
  TargetPath : String
  deriving DecidableEq, Repr

/-- The function `checkMountPermissions`: the returned error, and the trace. -/
def checkMountPermissions (h : Host) (targetPath : String) (mode : Nat) (trace : List Call) :
    Option HostErr × List Call :=
  let (info, trace1) := h.call (.lstat targetPath) trace
  match info.err with
  | some err => (some err, trace1)
  | none =>
    let perm := info.mode % 512
    if perm ≠ mode then
      let (r, trace2) := h.call (.chmod targetPath mode) trace1
      match r.err with
      | some err => (some err, trace2)
      | none => (none, trace2)
    else (none, trace1)

/-- The steps `Step 1` and `Step 2` of `NodePublishVolume`, entered once `notMnt`
is known. -/
def publishMount (h : Host) (source targetPath : String) (mountOpts : List String)
    (mountPermissions : Nat) (notMnt : Bool) (trace : List Call) :
    Except Status Unit × List Call :=
  if !notMnt then (.ok (), trace)
  else
    let (r, trace1) := h.call (.mount source targetPath "nfs" mountOpts) trace
    match r.err with
    | some err =>
      if err.isPermission then (.error ⟨.PermissionDenied, h.sprintf err.msg⟩, trace1)
      else if stringsContains err.msg "invalid argument" then
        (.error ⟨.InvalidArgument, "invalid argument: " ++ err.msg⟩, trace1)
      else (.error ⟨.Internal, "mount failed: " ++ err.msg⟩, trace1)
    | none =>
      if mountPermissions > 0 then
        match checkMountPermissions h targetPath mountPermissions trace1 with
        | (some err, trace2) => (.error ⟨.Internal, err.msg⟩, trace2)
        | (none, trace2) => (.ok (), trace2)
      else (.ok (), trace1)

/-- The method `nodeServer.NodePublishVolume`. -/
def NodePublishVolume (h : Host) (req : NodePublishVolumeRequest) (trace : List Call) :
    Except Status Unit × List Call :=
  let volumeID := req.VolumeId
  if volumeID = "" then (.error ⟨.InvalidArgument, "Volume ID is required"⟩, trace)
  else
    let targetPath := req.TargetPath
    if targetPath = "" then (.error ⟨.InvalidArgument, "Target path is required"⟩, trace)
    else
      match req.VolumeCapability with
      | none => (.error ⟨.InvalidArgument, "Volume capability is required"⟩, trace)
      | some volumeCapability =>
        let mountOpts := volumeCapability.getMountFlags ++ (if req.Readonly then ["ro"] else [])
        let volumeContext := req.VolumeContext
        let mountPermissionsValue := volumeContext.get mountPermissionKey
        match strconvParseUint mountPermissionsValue 8 32 with
        | .error e =>
          (.error ⟨.InvalidArgument, h.sprintf (h.numErrorText mountPermissionsValue e)⟩, trace)
        | .ok mountPermissions =>
          let server := volumeContext.get serverKey
          if server = "" then (.error ⟨.InvalidArgument, "Server is required"⟩, trace)
          else
            let basedir := volumeContext.get basedirKey
            if basedir = "" then
              (.error ⟨.InvalidArgument, "Base directory is required"⟩, trace)
            else
              let basedir := stringsTrim basedir "/"
              let basedir := filepathJoin ["/", basedir]
              let source := server ++ ":" ++ basedir
              let (r, trace1) := h.call (.isLikelyNotMountPoint targetPath) trace
              match r.err with
              | some err =>
                if err.isNotExist then
                  let (r2, trace2) := h.call (.mkdirAll targetPath mountPermissions) trace1
                  match r2.err with
                  | some err2 => (.error ⟨.Internal, err2.msg⟩, trace2)
                  | none =>
                    publishMount h source targetPath mountOpts mountPermissions true trace2
                else (.error ⟨.Internal, err.msg⟩, trace1)
              | none =>
                publishMount h source targetPath mountOpts mountPermissions r.notMnt trace1

/-- The method `nodeServer.NodeUnpublishVolume`; `mount.CleanupMountPoint` is
one call to the host. -/
def NodeUnpublishVolume (h : Host) (req : NodeUnpublishVolumeRequest) (trace : List Call) :
    Except Status Unit × List Call :=
  let volId := req.VolumeId
  if volId = "" then (.error ⟨.InvalidArgument, "Volume ID is required"⟩, trace)
  else
    let targetPath := req.TargetPath
    if targetPath = "" then (.error ⟨.InvalidArgument, "Target path is required"⟩, trace)
    else
      let (r, trace1) := h.call (.cleanupMountPoint targetPath) trace
      match r.err with
      | some err =>
        (.error ⟨.Internal, "failed to unmount " ++ targetPath ++ ": " ++ err.msg⟩, trace1)
      | none => (.ok (), trace1)

/-- The part of the interface `csi.NodeServer` the controller calls through
`cs.driver.ns`. A call takes the trace of host calls made so far and returns
the extended trace; its error is a gRPC status error. -/
structure NodeServer where
  NodePublishVolume : NodePublishVolumeRequest → List Call → Except Status Unit × List Call
  NodeUnpublishVolume : NodeUnpublishVolumeRequest → List Call → Except Status Unit × List Call

/-- The node server `NewNFSDriver` installs: `NewNodeServer(nfsClient)`. -/
def NewNodeServer (h : Host) : NodeServer :=
  ⟨NodePublishVolume h, NodeUnpublishVolume h⟩

/-! ## internal/nfs/controllerserver.go -/

/-- The state a controller call runs in: the processing set of
`cs.idempotency` and the host calls made so far. -/
structure SysState where
  idempotency : Idempotency
  trace : List Call
  deriving DecidableEq, Repr

structure CreateVolumeRequest where
  Name : String
  Parameters : GoMap String
  deriving DecidableEq, Repr

structure Volume where
  VolumeId : String
  CapacityBytes : Nat
  VolumeContext : GoMap String
  deriving DecidableEq, Repr

structure CreateVolumeResponse where
  Volume : Volume
  deriving DecidableEq, Repr

structure DeleteVolumeRequest where
  VolumeId : String
  deriving DecidableEq, Repr

/-- The function `validateMountPermissions`; `none` is the nil error. -/
def validateMountPermissions (mountPermissions : String) : Option String :=
  match strconvParseUint mountPermissions 8 32 with
  | .error _ => some ("invalid mount permissions: " ++ mountPermissions)
  | .ok _ => none

/-- The condition of the `range` loop in `validateNfsParameters`. -/
def hasIllegalChar (value : String) : Bool :=
  stringsContains value "&" || stringsContains value "|" || stringsContains value ";" ||
    stringsContains value "$" || stringsContains value "'" || stringsContains value "`" ||
    stringsContains value "(" || stringsContains value ")"

/-- The function `validateNfsParameters`; `none` is the nil error. -/
def validateNfsParameters (params : GoMap String) : Option String :=
  let msg := params.foldl
    (fun msg e => if hasIllegalChar e.2 then msg ++ ("Args " ++ e.2 ++ " has illegal access.") else msg)
    ""
  if msg ≠ "" then some msg
  else
    match validateMountPermissions (params.get mountPermissionKey) with
    | some err => some err
    | none =>
      if !params.has serverKey then some "nfs server is required"
      else if !params.has basedirKey then some "nfs basedir is required"
      else none

/-- The function `validateVolumeRequest`; a nil parameter map and the empty map
it is replaced by are both the empty list. -/
def validateVolumeRequest (req : CreateVolumeRequest) : Option String :=
  if req.Name = "" then some "volume name cannot be empty"
  else validateNfsParameters req.Parameters

/-- The function `getVolumtMountPath`. -/
def getVolumtMountPath (targetParentPath subdir : String) : String :=
  filepathJoin [targetParentPath, subdir]

/-- The function `getTargetParentPath`. -/
def getTargetParentPath (mountPath : String) : String :=
  filepathJoin [nfsWorkingDir, mountPath]

/-- The defaulting of `subdir` in `CreateVolume` (its `Step 2`): an absent or
empty `subdir` is set to the name of the request. -/
def withDefaultSubdir (parameters : GoMap String) (name : String) : GoMap String :=
  if !parameters.has subdirKey || parameters.get subdirKey = "" then
    parameters.set subdirKey name
  else parameters

/-- The method `controllerServer.preMount`: the returned error, and the trace. -/
def preMount (ns : NodeServer) (h : Host) (parameters : GoMap String)
    (volId targetParentPath : String) (trace : List Call) : Option Status × List Call :=
  let volCap : VolumeCapability := ⟨.mount []⟩
  let server := stringsTrim (parameters.get serverKey) "/"
  let basedir := stringsTrim (parameters.get basedirKey) "/"
  let volumeContext : GoMap String :=
    [(serverKey, server), (basedirKey, filepathJoin ["/", basedir]),
      (mountPermissionKey, parameters.get mountPermissionKey)]
  let volumeContext := parameters.foldl
    (fun vc e => if stringsToLower h e.1 ≠ subdirKey then vc.set e.1 e.2 else vc)
    volumeContext
  match ns.NodePublishVolume
      { TargetPath := targetParentPath, VolumeContext := volumeContext,
        VolumeCapability := some volCap, VolumeId := volId, Readonly := false } trace with
  | (.error err, trace1) => (some err, trace1)
  | (.ok _, trace1) => (none, trace1)

/-- The method `controllerServer.preUnmount`: the returned error, and the trace. -/
def preUnmount (ns : NodeServer) (volId targetParentPath : String) (trace : List Call) :
    Option Status × List Call :=
  match ns.NodeUnpublishVolume { TargetPath := targetParentPath, VolumeId := volId } trace with
  | (.error err, trace1) => (some err, trace1)
  | (.ok _, trace1) => (none, trace1)

/-- The deferred function of `CreateVolume` and `DeleteVolume`: the unmount,
whose error is only logged, then the release of the guard key. -/
def deferredCleanup (ns : NodeServer) (volId targetParentPath key : String)
    (idem : Idempotency) (trace : List Call) : SysState :=
  let (_, trace1) := preUnmount ns volId targetParentPath trace
  ⟨idem.RemoveProcessing key, trace1⟩

/-- The method `controllerServer.CreateVolume`. -/
def CreateVolume (ns : NodeServer) (h : Host) (req : CreateVolumeRequest) (st : SysState) :
    Except Status CreateVolumeResponse × SysState :=
  match validateVolumeRequest req with
  | some err => (.error ⟨.InvalidArgument, err⟩, st)
  | none =>
    if st.idempotency.IsProcessing req.Name then
      (.error ⟨.Aborted, "Volume is being handled"⟩, st)
    else
      let idem := st.idempotency.AddProcessing req.Name
      let parameters := withDefaultSubdir req.Parameters req.Name
      let volId := getVolIdFromParams parameters
      let targetParentPath := getTargetParentPath (parameters.get subdirKey)
      match preMount ns h parameters volId targetParentPath st.trace with
      | (some err, trace1) => (.error ⟨.Internal, err.Error⟩, ⟨idem, trace1⟩)
      | (none, trace1) =>
        match strconvParseUint (parameters.get mountPermissionKey) 8 32 with
        | .error e =>
          (.error ⟨.InvalidArgument, h.numErrorText (parameters.get mountPermissionKey) e⟩,
            deferredCleanup ns volId targetParentPath req.Name idem trace1)
        | .ok mountPermission =>
          let volumeMountPath := getVolumtMountPath targetParentPath (parameters.get subdirKey)
          let (r, trace2) := h.call (.mkdirAll volumeMountPath mountPermission) trace1
          match r.err with
          | some err =>
            (.error ⟨.Internal, err.msg⟩,
              deferredCleanup ns volId targetParentPath req.Name idem trace2)
          | none =>
            (.ok ⟨⟨volId, 0, parameters⟩⟩,
              deferredCleanup ns volId targetParentPath req.Name idem trace2)

/-- The method `controllerServer.DeleteVolume`. -/
def DeleteVolume (ns : NodeServer) (h : Host) (req : DeleteVolumeRequest) (st : SysState) :
    Except Status Unit × SysState :=
  if st.idempotency.IsProcessing req.VolumeId then
    (.error ⟨.FailedPrecondition, "Volume is gone already"⟩, st)
  else
    let idem := st.idempotency.AddProcessing req.VolumeId
    let volId := req.VolumeId
    if volId = "" then (.error ⟨.InvalidArgument, "Volume ID is required"⟩, ⟨idem, st.trace⟩)
    else
      match getParamsFromVolId volId with
      | (_, _, _, some err) => (.error ⟨.InvalidArgument, err⟩, ⟨idem, st.trace⟩)
      | (server, basedir, subdir, none) =>
        let parameters : GoMap String := []
        let parameters := parameters.set serverKey server
        let parameters := parameters.set basedirKey basedir
        let parameters := parameters.set subdirKey subdir
        let targetParentPath := getTargetParentPath (parameters.get subdirKey)
        match preMount ns h parameters volId targetParentPath st.trace with
        | (some err, trace1) => (.error ⟨.Internal, err.Error⟩, ⟨idem, trace1⟩)
        | (none, trace1) =>
          let volumeMountPath := getVolumtMountPath targetParentPath (parameters.get subdirKey)
          let (r, trace2) := h.call (.removeAll volumeMountPath) trace1
          match r.err with
          | some err =>
            (.error ⟨.Internal, err.msg⟩,
              deferredCleanup ns volId targetParentPath req.VolumeId idem trace2)
          | none =>
            let idem := idem.RemoveProcessing req.VolumeId
            (.ok (), deferredCleanup ns volId targetParentPath req.VolumeId idem trace2)

/-- The spec's wording of the effective `subdir` of a create request: the
supplied `subdir` if the key is present and its value non-empty, the display
name otherwise. -/
def specSubdir (req : CreateVolumeRequest) : String :=
  match req.Parameters.find "subdir" with
  | some v => if v = "" then req.Name else v
  | none => req.Name

/-- A node server for tests: both calls succeed and leave the host alone. -/
def stubNodeServer : NodeServer :=
  ⟨fun _ trace => (.ok (), trace), fun _ trace => (.ok (), trace)⟩

/-- A host whose mount call fails with a timeout; every other call succeeds. -/
def mountFailHost : Host :=
  { reply := fun _ c =>
      match c with
      | .mount _ _ _ _ => ⟨some ⟨"connection timed out", false, false⟩, true, 0⟩
      | _ => ⟨none, true, 493⟩
    unicodeToLower := fun c => c
    numErrorText := fun s _ => s
    sprintf := fun s => s }

/-- A host on which every call succeeds and no path is a mount point yet. -/
def okHost : Host :=
  { reply := fun _ _ => ⟨none, true, 493⟩
    unicodeToLower := fun c => c
    numErrorText := fun s _ => s
    sprintf := fun s => s }

/-! ## Sequences of guard calls and the admission step relation -/

/-- A call that changes the guard. -/
inductive GuardOp where
  | add (volumeId : String)
  | remove (volumeId : String)
  deriving DecidableEq, Repr

/-- One call on the guard. -/
def Idempotency.applyOp (i : Idempotency) : GuardOp → Idempotency
  | .add volumeId => i.AddProcessing volumeId
  | .remove volumeId => i.RemoveProcessing volumeId

/-- A sequence of calls on the guard, first call first. -/
def Idempotency.run (i : Idempotency) (ops : List GuardOp) : Idempotency :=
  ops.foldl Idempotency.applyOp i

/-- A `CreateVolume` or `DeleteVolume` call that has passed the guard and has
not released its key yet: the key it added to the processing set and the
target parent path it works on (none for a delete call that returns before it
computes one). -/
structure Admitted where
  key : String
  targetParentPath : Option String
  deriving DecidableEq, Repr

/-- The target parent path of `DeleteVolume` for a volume id: the id must be
non-empty and decode. -/
def deleteTargetParentPath (volId : String) : Option String :=
  if volId = "" then none
  else
    match getParamsFromVolId volId with
    | (_, _, _, some _) => none
    | (_, _, subdir, none) => some (getTargetParentPath subdir)

/-- The controller seen through its guard: the processing set and the calls
admitted and not yet released. -/
structure CtlState where
  idempotency : Idempotency
  admitted : List Admitted
  deriving DecidableEq, Repr

/-- The steps of the controller: the admission of a create or delete request
(the `IsProcessing` check and `AddProcessing`, taken as one step) and the
release of the key by the admitted call at a position of the list. -/
inductive CtlEvent where
  | admitCreate (req : CreateVolumeRequest)
  | admitDelete (req : DeleteVolumeRequest)
  | release (position : Nat)
  deriving DecidableEq, Repr

/-- One step; `none` when the step is not possible in the state (the request
is turned away before or by the guard, or there is no such admitted call). -/
def ctlStep (s : CtlState) : CtlEvent → Option CtlState
  | .admitCreate req =>
    if validateVolumeRequest req ≠ none then none
    else if s.idempotency.IsProcessing req.Name then none
    else
      some ⟨s.idempotency.AddProcessing req.Name,
        s.admitted ++ [⟨req.Name,
          some (getTargetParentPath
            ((withDefaultSubdir req.Parameters req.Name).get subdirKey))⟩]⟩
  | .admitDelete req =>
    if s.idempotency.IsProcessing req.VolumeId then none
    else
      some ⟨s.idempotency.AddProcessing req.VolumeId,
        s.admitted ++ [⟨req.VolumeId, deleteTargetParentPath req.VolumeId⟩]⟩
  | .release position =>
    match s.admitted.get? position with
    | none => none
    | some a => some ⟨s.idempotency.RemoveProcessing a.key, s.admitted.eraseIdx position⟩

/-- A sequence of steps from a state, first step first. -/
def ctlRun (s : CtlState) : List CtlEvent → Option CtlState
  | [] => some s
  | e :: es =>
    match ctlStep s e with
    | none => none
    | some s2 => ctlRun s2 es

/-- The state of a controller made by `NewControllerServer`. -/
def ctlInit : CtlState := ⟨NewIdempotency, []⟩

/-! ## The spec's wording of the validation rules -/

/-- The spec's wording of an offending value: it contains one of the
characters ``& | ; $ ' ` ( )``. -/
def isOffending (value : String) : Bool :=
  "&|;$'`()".data.any (fun c => value.data.contains c)

/-- The spec's wording of the combined message: one fragment
`Args <value> has illegal access.` for each entry with an offending value. -/
def illegalFragments (params : GoMap String) : List String :=
  (params.filter (fun e => isOffending e.2)).map
    (fun e => "Args " ++ e.2 ++ " has illegal access.")

/-- The spec's wording of a base-8 digit. -/
def isOctalDigit (c : Char) : Bool :=
  decide ('0' ≤ c ∧ c ≤ '7')

/-- The value of a string of base-8 digits, most significant digit first. -/
def octalValue (cs : List Char) : Nat :=
  cs.foldl (fun n c => n * 8 + (c.toNat - '0'.toNat)) 0

/-! ## Volume capabilities (internal/nfs/controllerserver.go) -/

/-- The function `tryValidateVolumeCapabilities`; `none` is the nil error. -/
def tryValidateVolumeCapabilities (volCaps : List VolumeCapability) : Option String :=
  if volCaps.length = 0 then some "volume capabilities cannot be empty"
  else if volCaps.any (fun cap => cap.isBlock) then some "block volume is not supported"
  else none

structure ValidateVolumeCapabilitiesRequest where
  VolumeId : String
  VolumeCapabilities : List VolumeCapability
  deriving DecidableEq, Repr

/-- The message `csi.ValidateVolumeCapabilitiesResponse`: the capability list
of its `Confirmed` part and the message. -/
structure ValidateVolumeCapabilitiesResponse where
  Confirmed : List VolumeCapability
  Message : String
  deriving DecidableEq, Repr

/-- The method `controllerServer.ValidateVolumeCapabilities`. -/
def ValidateVolumeCapabilities (req : ValidateVolumeCapabilitiesRequest) :
    Except Status ValidateVolumeCapabilitiesResponse :=
  let volId := req.VolumeId
  if volId = "" then .error ⟨.InvalidArgument, "Volume ID is required"⟩
  else
    match tryValidateVolumeCapabilities req.VolumeCapabilities with
    | some _ => .error ⟨.InvalidArgument, "invalid volume capabilities"⟩
    | none => .ok ⟨req.VolumeCapabilities, ""⟩

/-! ## The spec's wording of the mount step and of path containment -/

/-- Whether a host call is a call of `Mount`. -/
def Call.isMount : Call → Bool
  | .mount _ _ _ _ => true
  | _ => false

/-- The spec's wording of the classes of a mount error: permission first, then
a message that contains `invalid argument`, then everything else. -/
def mountErrorCode (e : HostErr) : Code :=
  if e.isPermission then .PermissionDenied
  else if stringsContains e.msg "invalid argument" then .InvalidArgument
  else .Internal

/-- The request reaches the mount step of `NodePublishVolume`: its id, target
path and capability are there, `mountPermission` parses to `perm`, `server` and
`basedir` are not empty, and the target path either is there and is not a
mount point, or is missing and is created. `trace1` is the trace at which
`Mount` is called. -/
def ReachesMount (h : Host) (req : NodePublishVolumeRequest) (trace trace1 : List Call)
    (perm : Nat) : Prop :=
  req.VolumeId ≠ "" ∧ req.TargetPath ≠ "" ∧ req.VolumeCapability ≠ none ∧
    strconvParseUint (req.VolumeContext.get mountPermissionKey) 8 32 = .ok perm ∧
    req.VolumeContext.get serverKey ≠ "" ∧ req.VolumeContext.get basedirKey ≠ "" ∧
    (((h.reply trace (.isLikelyNotMountPoint req.TargetPath)).err = none ∧
        (h.reply trace (.isLikelyNotMountPoint req.TargetPath)).notMnt = true ∧
        trace1 = trace ++ [.isLikelyNotMountPoint req.TargetPath]) ∨
      (∃ e : HostErr, (h.reply trace (.isLikelyNotMountPoint req.TargetPath)).err = some e ∧
        e.isNotExist = true ∧
        (h.reply (trace ++ [.isLikelyNotMountPoint req.TargetPath])
          (.mkdirAll req.TargetPath perm)).err = none ∧
        trace1 = trace ++ [.isLikelyNotMountPoint req.TargetPath,
          .mkdirAll req.TargetPath perm]))

/-- The mount options `NodePublishVolume` passes to `Mount`. -/
def publishMountOpts (req : NodePublishVolumeRequest) : List String :=
  (match req.VolumeCapability with
    | some c => c.getMountFlags
    | none => []) ++ (if req.Readonly then ["ro"] else [])

/-- The spec's wording of a strict descendant, for cleaned paths: `path` is
`root`, a `/`, and one or more elements separated by `/`, none of them empty,
`.` or `..`. -/
def isStrictDescendant (root path : String) : Bool :=
  (root.data ++ ['/']).isPrefixOf path.data &&
    (splitChars ['/'] 0 (path.data.drop (root.data.length + 1))).all
      (fun e => decide (e ≠ [] ∧ e ≠ ['.'] ∧ e ≠ ['.', '.']))

/-- A host whose mount call is refused for lack of permission, with a message
that also speaks of an invalid argument; every other call succeeds. -/
def mountDeniedHost : Host :=
  { reply := fun _ c =>
      match c with
      | .mount _ _ _ _ => ⟨some ⟨"permission denied: invalid argument", false, true⟩, true, 0⟩
      | _ => ⟨none, true, 493⟩
    unicodeToLower := fun c => c
    numErrorText := fun s _ => s
    sprintf := fun s => s }

/-! ## The tests of the repository and a few more evaluations -/

example : isStrictDescendant "/tmp" "/tmp/a/b" = true := by decide
example : isStrictDescendant "/tmp" "/tmp" = false := by decide
example : isStrictDescendant "/tmp" "/tmp/" = false := by decide
example : isStrictDescendant "/tmp" "/tmpx/a" = false := by decide
example : isStrictDescendant "/tmp" "/tmp/a/../.." = false := by decide
example : getVolumtMountPath (getTargetParentPath "fakeSubDir") "fakeSubDir" =
    "/tmp/fakeSubDir/fakeSubDir" := by decide
example : getVolumtMountPath (getTargetParentPath ".") "." = "/tmp" := by decide

example : getVolIdFromParams [("server", "faleServer"), ("basedir", "fakeBaseDir"),
    ("subdir", "fakeSubDir")] = "faleServer#fakeBaseDir#fakeSubDir" := by decide
example : getParamsFromVolId "faleServer#fakeBaseDir#fakeSubDir" =
    ("faleServer", "fakeBaseDir", "fakeSubDir", none) := by decide
example : getParamsFromVolId "testDeleteVolumeReq1" =
    ("", "", "", some "invalid volume ID which cannot be parsed") := by decide
example : stringsTrim "//a/b//" "/" = "a/b" := by decide
example : filepathJoin ["/tmp", "fakeVol1"] = "/tmp/fakeVol1" := by decide
example : getTargetParentPath "faleServer#fakeBaseDir#fakeSubDir" =
    "/tmp/faleServer#fakeBaseDir#fakeSubDir" := by decide
example : getTargetParentPath ".." = "/" := by decide
example : filepathJoin ["/", "a//b/./c/.."] = "/a/b" := by decide
example : filepathClean "../a/../../b" = "../../b" := by decide
example : strconvParseUint "0755" 8 32 = .ok 493 := by decide
example : strconvParseUint "0758" 8 32 = .error .ErrSyntax := by decide
example : strconvParseUint "40000000000" 8 32 = .error .ErrRange := by decide
example : strconvParseUint "37777777777" 8 32 = .ok 4294967295 := by decide

/-! ## Lemmas on the library models -/

theorem splitChars_single_cons (x c : Char) (cs : List Char) :
    splitChars [x] 0 (c :: cs) =
      if c = x then [] :: splitChars [x] 0 cs
      else match splitChars [x] 0 cs with
        | [] => [[c]]
        | h :: t => (c :: h) :: t := by
  by_cases h : c = x
  · subst h; simp [splitChars, List.isPrefixOf]
  · have h2 : ¬ x = c := fun e => h e.symm
    simp [splitChars, List.isPrefixOf, h, h2]

theorem splitChars_single_ne_nil (x : Char) (l : List Char) : splitChars [x] 0 l ≠ [] := by
  induction l with
  | nil => simp [splitChars]
  | cons c cs ih =>
    rw [splitChars_single_cons]
    split
    · simp
    · split <;> simp

theorem splitChars_single_of_not_mem (x : Char) (a : List Char) (h : x ∉ a) :
    splitChars [x] 0 a = [a] := by
  induction a with
  | nil => simp [splitChars]
  | cons c cs ih =>
    have hc : ¬ c = x := fun e => h (by simp [e])
    have hcs : x ∉ cs := fun e => h (by simp [e])
    rw [splitChars_single_cons, ih hcs]
    simp [hc]

theorem splitChars_single_append (x : Char) (a rest : List Char) (h : x ∉ a) :
    splitChars [x] 0 (a ++ x :: rest) = a :: splitChars [x] 0 rest := by
  induction a with
  | nil => simp [splitChars_single_cons]
  | cons c cs ih =>
    have hc : ¬ c = x := fun e => h (by simp [e])
    have hcs : x ∉ cs := fun e => h (by simp [e])
    rw [List.cons_append, splitChars_single_cons, ih hcs]
    simp [hc]

theorem splitChars_single_length (x : Char) (l : List Char) :
    (splitChars [x] 0 l).length = l.count x + 1 := by
  induction l with
  | nil => simp [splitChars]
  | cons c cs ih =>
    rw [splitChars_single_cons]
    by_cases hc : c = x
    · subst hc; simp [ih]
    · have hne : (c == x) = false := by simp [hc]
      rw [if_neg hc, List.count_cons, hne]
      cases hs : splitChars [x] 0 cs with
      | nil => exact absurd hs (splitChars_single_ne_nil x cs)
      | cons h t => rw [hs] at ih; simpa using ih

theorem splitChars_single_not_mem (x : Char) (l : List Char) :
    ∀ p ∈ splitChars [x] 0 l, x ∉ p := by
  induction l with
  | nil => simp [splitChars]
  | cons c cs ih =>
    rw [splitChars_single_cons]
    by_cases hc : c = x
    · subst hc
      intro p hp
      simp only [if_true, List.mem_cons] at hp
      rcases hp with rfl | hp
      · simp
      · exact ih p hp
    · rw [if_neg hc]
      cases hs : splitChars [x] 0 cs with
      | nil => exact absurd hs (splitChars_single_ne_nil x cs)
      | cons h t =>
        rw [hs] at ih
        intro p hp
        simp only [List.mem_cons] at hp
        rcases hp with rfl | hp
        · have := ih h (by simp)
          intro hm
          simp only [List.mem_cons] at hm
          rcases hm with e | hm
          · exact hc e.symm
          · exact this hm
        · exact ih p (by simp [hp])

theorem joinChars_cons_cons (sep a : List Char) (b : List Char) (rest : List (List Char)) :
    joinChars sep (a :: b :: rest) = a ++ sep ++ joinChars sep (b :: rest) := rfl

theorem joinChars_splitChars_single (x : Char) (l : List Char) :
    joinChars [x] (splitChars [x] 0 l) = l := by
  induction l with
  | nil => simp [splitChars, joinChars]
  | cons c cs ih =>
    rw [splitChars_single_cons]
    by_cases hc : c = x
    · subst hc
      rw [if_pos rfl]
      cases hs : splitChars [c] 0 cs with
      | nil => exact absurd hs (splitChars_single_ne_nil c cs)
      | cons h t => rw [joinChars_cons_cons, ← hs, ih]; simp
    · rw [if_neg hc]
      cases hs : splitChars [x] 0 cs with
      | nil => exact absurd hs (splitChars_single_ne_nil x cs)
      | cons h t =>
        rw [hs] at ih
        cases t with
        | nil => simpa [joinChars] using ih
        | cons b rest =>
          rw [joinChars_cons_cons] at ih
          simp only [joinChars_cons_cons, List.cons_append]
          rw [← ih]

theorem splitChars_single_join3 (x : Char) (a b c : List Char)
    (ha : x ∉ a) (hb : x ∉ b) (hc : x ∉ c) :
    splitChars [x] 0 (joinChars [x] [a, b, c]) = [a, b, c] := by
  simp only [joinChars, List.append_assoc, List.singleton_append]
  rw [splitChars_single_append x a _ ha, splitChars_single_append x b _ hb,
    splitChars_single_of_not_mem x c hc]

theorem dropWhile_slash_decomp (l : List Char) :
    ∃ n : Nat, l = List.replicate n '/' ++ l.dropWhile (fun c => c == '/') ∧
      (l.dropWhile (fun c => c == '/')).head? ≠ some '/' := by
  induction l with
  | nil => exact ⟨0, by simp⟩
  | cons c cs ih =>
    by_cases hc : c = '/'
    · obtain ⟨n, h1, h2⟩ := ih
      refine ⟨n + 1, ?_, ?_⟩
      · subst hc
        simp only [List.dropWhile_cons, beq_self_eq_true, if_true, List.replicate_succ,
          List.cons_append]
        rw [← h1]
      · subst hc
        simpa [List.dropWhile_cons] using h2
    · refine ⟨0, ?_, ?_⟩
      · simp [List.dropWhile_cons, hc]
      · simp [List.dropWhile_cons, hc]

theorem rdropWhile_slash_decomp (l : List Char) :
    ∃ m : Nat, l = l.rdropWhile (fun c => c == '/') ++ List.replicate m '/' ∧
      (l.rdropWhile (fun c => c == '/')).getLast? ≠ some '/' := by
  obtain ⟨m, h1, h2⟩ := dropWhile_slash_decomp l.reverse
  refine ⟨m, ?_, ?_⟩
  · have := congrArg List.reverse h1
    simpa [List.rdropWhile] using this
  · simpa [List.rdropWhile] using h2

theorem head?_of_prefix_ne (t l : List Char) (c : Char) (hp : t <+: l) (h : l.head? ≠ some c) :
    t.head? ≠ some c := by
  obtain ⟨r, rfl⟩ := hp
  cases t with
  | nil => simp
  | cons a as => simpa using h

theorem stringsTrim_slash_data (s : String) :
    (stringsTrim s "/").data =
      (s.data.dropWhile (fun c => c == '/')).rdropWhile (fun c => c == '/') := by
  have hp : (fun c : Char => "/".data.contains c) = (fun c : Char => c == '/') := by
    funext c
    by_cases h : c = '/' <;> simp [h]
  unfold stringsTrim
  rw [hp]

theorem isSlashTrim_stringsTrim (s : String) : IsSlashTrim s (stringsTrim s "/") := by
  obtain ⟨n, h1, h2⟩ := dropWhile_slash_decomp s.data
  obtain ⟨m, h3, h4⟩ := rdropWhile_slash_decomp (s.data.dropWhile (fun c => c == '/'))
  refine ⟨n, m, ?_, ?_, ?_⟩
  · rw [stringsTrim_slash_data, List.append_assoc, ← h3, ← h1]
  · rw [stringsTrim_slash_data]
    exact head?_of_prefix_ne _ _ _ (List.rdropWhile_prefix _ _) h2
  · rw [stringsTrim_slash_data]; exact h4

theorem not_mem_stringsTrim (s cutset : String) (x : Char) (h : x ∉ s.data) :
    x ∉ (stringsTrim s cutset).data := by
  intro hx
  apply h
  have h1 := (List.rdropWhile_prefix (fun c => cutset.data.contains c)
    (s.data.dropWhile (fun c => cutset.data.contains c))).subset hx
  exact (List.dropWhile_suffix (fun c => cutset.data.contains c)).subset h1

theorem stringsSplit_seperator (s : String) :
    stringsSplit s seperator = (splitChars ['#'] 0 s.data).map String.mk := by
  simp [stringsSplit, seperator]

theorem stringsJoin_seperator (a b c : String) :
    stringsJoin [a, b, c] seperator = String.mk (joinChars ['#'] [a.data, b.data, c.data]) := by
  simp [stringsJoin, seperator]

theorem getParams_join3 (a b c : String)
    (ha : '#' ∉ a.data) (hb : '#' ∉ b.data) (hc : '#' ∉ c.data) :
    getParamsFromVolId (stringsJoin [a, b, c] seperator) = (a, b, c, none) := by
  unfold getParamsFromVolId
  rw [stringsSplit_seperator, stringsJoin_seperator]
  simp only []
  rw [splitChars_single_join3 _ _ _ _ ha hb hc]
  simp

/-! ## Lemmas on Go maps -/

theorem lookup_cons_eq {V : Type} (k a : String) (b : V) (es : List (String × V)) :
    List.lookup k ((a, b) :: es) = if k = a then some b else List.lookup k es := by
  rw [List.lookup_cons]
  by_cases h : k = a
  · subst h; simp
  · have h1 : (k == a) = false := by simpa using h
    rw [h1, if_neg h]

theorem lookup_map_replace {V : Type} (m : GoMap V) (k k2 : String) (v : V) :
    List.lookup k2 (m.map (fun e => if e.1 = k then (k, v) else e)) =
      if k2 = k then (List.lookup k m).map (fun _ => v) else List.lookup k2 m := by
  induction m with
  | nil => simp
  | cons e es ih =>
    obtain ⟨a, b⟩ := e
    rw [List.map_cons]
    by_cases hak : a = k
    · subst hak
      simp only [if_true, lookup_cons_eq, ih]
      by_cases hk : k2 = a
      · subst hk; simp
      · simp [hk]
    · simp only [if_neg hak, lookup_cons_eq, ih]
      by_cases hk : k2 = k
      · subst hk
        have h1 : ¬ k2 = a := fun e => hak e.symm
        simp [h1]
      · simp [hk]

theorem lookup_append_single {V : Type} (m : GoMap V) (k k2 : String) (v : V) :
    List.lookup k2 (m ++ [(k, v)]) =
      match List.lookup k2 m with
      | some x => some x
      | none => if k2 = k then some v else none := by
  induction m with
  | nil => simp [lookup_cons_eq]
  | cons e es ih =>
    obtain ⟨a, b⟩ := e
    rw [List.cons_append, lookup_cons_eq, lookup_cons_eq, ih]
    by_cases h2 : k2 = a
    · simp [h2]
    · simp [h2]

theorem GoMap.find_set_self {V : Type} (m : GoMap V) (k : String) (v : V) :
    (m.set k v).find k = some v := by
  unfold GoMap.set GoMap.has GoMap.find
  cases hl : List.lookup k m with
  | none => simp [lookup_append_single, hl]
  | some x => simp [lookup_map_replace, hl]

theorem GoMap.find_set_ne {V : Type} (m : GoMap V) (k k2 : String) (v : V) (h : k2 ≠ k) :
    (m.set k v).find k2 = m.find k2 := by
  unfold GoMap.set GoMap.has GoMap.find
  cases hl : List.lookup k m with
  | none =>
    simp only [Option.isSome_none, Bool.false_eq_true, if_false, lookup_append_single, if_neg h]
    cases List.lookup k2 m <;> rfl
  | some x => simp [lookup_map_replace, h]

theorem GoMap.get_set_self (m : GoMap String) (k v : String) : (m.set k v).get k = v := by
  simp [GoMap.get, GoMap.find_set_self]

theorem GoMap.get_set_ne (m : GoMap String) (k k2 v : String) (h : k2 ≠ k) :
    (m.set k v).get k2 = m.get k2 := by
  simp [GoMap.get, GoMap.find_set_ne _ _ _ _ h]

theorem GoMap.has_set_self {V : Type} (m : GoMap V) (k : String) (v : V) :
    (m.set k v).has k = true := by
  simp [GoMap.has, GoMap.find_set_self]

theorem GoMap.has_set_ne {V : Type} (m : GoMap V) (k k2 : String) (v : V) (h : k2 ≠ k) :
    (m.set k v).has k2 = m.has k2 := by
  simp [GoMap.has, GoMap.find_set_ne _ _ _ _ h]

theorem GoMap.find_delete_self {V : Type} (m : GoMap V) (k : String) :
    (m.delete k).find k = none := by
  unfold GoMap.delete GoMap.find
  induction m with
  | nil => simp
  | cons e es ih =>
    obtain ⟨a, b⟩ := e
    by_cases h : a = k
    · rw [List.filter_cons_of_neg (by simp [h])]; exact ih
    · rw [List.filter_cons_of_pos (by simp [h]), lookup_cons_eq, ih]
      have h1 : ¬ k = a := fun e => h e.symm
      simp [h1]

theorem GoMap.has_delete_self {V : Type} (m : GoMap V) (k : String) :
    (m.delete k).has k = false := by
  simp [GoMap.has, GoMap.find_delete_self]

/-! ## The identifier codec -/

theorem getVolIdFromParams_eq (p : GoMap String) :
    getVolIdFromParams p =
      stringsJoin [stringsTrim (p.get serverKey) "/", stringsTrim (p.get basedirKey) "/",
        stringsTrim (p.get subdirKey) "/"] seperator := rfl

theorem stringsJoin3_eq_append (a b c : String) :
    stringsJoin [a, b, c] seperator = a ++ "#" ++ b ++ "#" ++ c := by
  apply String.ext
  simp [stringsJoin, seperator, joinChars, String.data_append]

theorem stringsSplit_join3 (a b c : String)
    (ha : '#' ∉ a.data) (hb : '#' ∉ b.data) (hc : '#' ∉ c.data) :
    stringsSplit (stringsJoin [a, b, c] seperator) seperator = [a, b, c] := by
  rw [stringsSplit_seperator, stringsJoin_seperator]
  simp only []
  rw [splitChars_single_join3 _ _ _ _ ha hb hc]
  simp

/-- C1: decoding the identifier built from a parameter map whose `server`,
`basedir` and `subdir` values contain no `#` succeeds and returns the three
values with their leading and trailing `/` removed. -/
theorem decode_encode_roundtrip (p : GoMap String)
    (hs : '#' ∉ (p.get serverKey).data) (hb : '#' ∉ (p.get basedirKey).data)
    (hd : '#' ∉ (p.get subdirKey).data) :
    getParamsFromVolId (getVolIdFromParams p) =
        (stringsTrim (p.get serverKey) "/", stringsTrim (p.get basedirKey) "/",
          stringsTrim (p.get subdirKey) "/", none) ∧
      IsSlashTrim (p.get serverKey) (stringsTrim (p.get serverKey) "/") ∧
      IsSlashTrim (p.get basedirKey) (stringsTrim (p.get basedirKey) "/") ∧
      IsSlashTrim (p.get subdirKey) (stringsTrim (p.get subdirKey) "/") := by
  refine ⟨?_, isSlashTrim_stringsTrim _, isSlashTrim_stringsTrim _, isSlashTrim_stringsTrim _⟩
  rw [getVolIdFromParams_eq]
  exact getParams_join3 _ _ _ (not_mem_stringsTrim _ _ _ hs) (not_mem_stringsTrim _ _ _ hb)
    (not_mem_stringsTrim _ _ _ hd)

theorem decode_encode_roundtrip_witness :
    getParamsFromVolId (getVolIdFromParams
        [("server", "/10.0.0.1/"), ("basedir", "//exports/a/"), ("subdir", "vol1")]) =
      ("10.0.0.1", "exports/a", "vol1", none) :=
  (decode_encode_roundtrip
    [("server", "/10.0.0.1/"), ("basedir", "//exports/a/"), ("subdir", "vol1")]
    (by decide) (by decide) (by decide)).1

/-- C2: `getParamsFromVolId` fails exactly when the identifier does not split
on `#` into three components, that is when it does not hold exactly two `#`;
when it succeeds the three results are the components in order, none holds a
`#`, and joined with `#` they give the identifier back. -/
theorem getParamsFromVolId_spec (id : String) :
    (stringsSplit id seperator).length = id.data.count '#' + 1 ∧
      (((stringsSplit id seperator).length ≠ 3 ∧
          getParamsFromVolId id = ("", "", "", some "invalid volume ID which cannot be parsed")) ∨
        ((stringsSplit id seperator).length = 3 ∧
          ∃ a b c : String, getParamsFromVolId id = (a, b, c, none) ∧
            stringsSplit id seperator = [a, b, c] ∧
            '#' ∉ a.data ∧ '#' ∉ b.data ∧ '#' ∉ c.data ∧
            stringsJoin [a, b, c] seperator = id)) := by
  have hlen : (stringsSplit id seperator).length = id.data.count '#' + 1 := by
    rw [stringsSplit_seperator, List.length_map, splitChars_single_length]
  refine ⟨hlen, ?_⟩
  have hmem := splitChars_single_not_mem '#' id.data
  have hjoin := joinChars_splitChars_single '#' id.data
  unfold getParamsFromVolId
  rw [stringsSplit_seperator] at *
  rcases hsp : splitChars ['#'] 0 id.data with _ | ⟨a, _ | ⟨b, _ | ⟨c, _ | ⟨d, r⟩⟩⟩⟩
  · left; simp
  · left; simp
  · left; simp
  · right
    rw [hsp] at hmem hjoin
    refine ⟨by simp, String.mk a, String.mk b, String.mk c, by simp, by simp, ?_, ?_, ?_, ?_⟩
    · exact hmem a (by simp)
    · exact hmem b (by simp)
    · exact hmem c (by simp)
    · rw [stringsJoin_seperator]
      apply String.ext
      simpa using hjoin
  · left; simp

/-- C3: the identifier of a parameter map is the three values of `server`,
`basedir` and `subdir` (the empty string for an absent key), each with its
leading and trailing `/` removed, joined by `#`. -/
theorem getVolIdFromParams_format (p : GoMap String) :
    (∃ ts tb td : String,
        IsSlashTrim ((p.find "server").getD "") ts ∧
        IsSlashTrim ((p.find "basedir").getD "") tb ∧
        IsSlashTrim ((p.find "subdir").getD "") td ∧
        getVolIdFromParams p = ts ++ "#" ++ tb ++ "#" ++ td) ∧
      getVolIdFromParams [("server", "faleServer"), ("basedir", "fakeBaseDir"),
        ("subdir", "fakeSubDir")] = "faleServer#fakeBaseDir#fakeSubDir" := by
  refine ⟨⟨stringsTrim (p.get serverKey) "/", stringsTrim (p.get basedirKey) "/",
    stringsTrim (p.get subdirKey) "/", isSlashTrim_stringsTrim _, isSlashTrim_stringsTrim _,
    isSlashTrim_stringsTrim _, ?_⟩, by decide⟩
  rw [getVolIdFromParams_eq, stringsJoin3_eq_append]

/-- C4 as stated fails: a `server` value holding a `#` gives an identifier of
four components, which `getParamsFromVolId` rejects. -/
theorem encode_any_strings_counterexample :
    (stringsSplit (getVolIdFromParams [("server", "a#b"), ("basedir", "c"), ("subdir", "d")])
        seperator).length = 4 ∧
      getParamsFromVolId (getVolIdFromParams [("server", "a#b"), ("basedir", "c"), ("subdir", "d")])
        = ("", "", "", some "invalid volume ID which cannot be parsed") := by
  decide

/-- C4 amended: for three strings none of which holds a `#`, the identifier
splits on `#` into exactly three components and `getParamsFromVolId` accepts it. -/
theorem encode_splits_in_three (server basedir subdir : String)
    (hs : '#' ∉ server.data) (hb : '#' ∉ basedir.data) (hd : '#' ∉ subdir.data) :
    (stringsSplit (getVolIdFromParams
        [("server", server), ("basedir", basedir), ("subdir", subdir)]) seperator).length = 3 ∧
      (getParamsFromVolId (getVolIdFromParams
        [("server", server), ("basedir", basedir), ("subdir", subdir)])).2.2.2 = none := by
  have hg1 : GoMap.get [("server", server), ("basedir", basedir), ("subdir", subdir)] serverKey
      = server := by simp [GoMap.get, GoMap.find, List.lookup, serverKey]
  have hg2 : GoMap.get [("server", server), ("basedir", basedir), ("subdir", subdir)] basedirKey
      = basedir := by simp [GoMap.get, GoMap.find, List.lookup, basedirKey]
  have hg3 : GoMap.get [("server", server), ("basedir", basedir), ("subdir", subdir)] subdirKey
      = subdir := by simp [GoMap.get, GoMap.find, List.lookup, subdirKey]
  rw [getVolIdFromParams_eq, hg1, hg2, hg3]
  have h1 := not_mem_stringsTrim server "/" _ hs
  have h2 := not_mem_stringsTrim basedir "/" _ hb
  have h3 := not_mem_stringsTrim subdir "/" _ hd
  rw [stringsSplit_join3 _ _ _ h1 h2 h3, getParams_join3 _ _ _ h1 h2 h3]
  exact ⟨rfl, rfl⟩

theorem encode_splits_in_three_witness :
    (stringsSplit (getVolIdFromParams
        [("server", "faleServer"), ("basedir", "/fakeBaseDir"), ("subdir", "fakeSubDir/")])
        seperator).length = 3 ∧
      (getParamsFromVolId (getVolIdFromParams
        [("server", "faleServer"), ("basedir", "/fakeBaseDir"), ("subdir", "fakeSubDir/")])).2.2.2
        = none :=
  encode_splits_in_three "faleServer" "/fakeBaseDir" "fakeSubDir/"
    (by decide) (by decide) (by decide)

/-! ## Validation and the guard -/

theorem tails_any_single (l : List Char) (c : Char) :
    l.tails.any (fun t => [c].isPrefixOf t) = true ↔ c ∈ l := by
  induction l with
  | nil => simp
  | cons a as ih =>
    rw [List.tails, List.any_cons, Bool.or_eq_true, ih]
    simp

theorem stringsContains_single (s : String) (c : Char) :
    stringsContains s (String.mk [c]) = true ↔ c ∈ s.data :=
  tails_any_single s.data c

theorem hasIllegalChar_iff (value : String) :
    hasIllegalChar value = true ↔ ∃ c ∈ "&|;$'`()".data, c ∈ value.data := by
  have h : ∀ c : Char, stringsContains value (String.mk [c]) = true ↔ c ∈ value.data :=
    stringsContains_single value
  unfold hasIllegalChar
  simp only [Bool.or_eq_true]
  have e1 : ("&" : String) = String.mk ['&'] := rfl
  have e2 : ("|" : String) = String.mk ['|'] := rfl
  have e3 : (";" : String) = String.mk [';'] := rfl
  have e4 : ("$" : String) = String.mk ['$'] := rfl
  have e5 : ("'" : String) = String.mk [Char.ofNat 39] := rfl
  have e6 : ("`" : String) = String.mk [Char.ofNat 96] := rfl
  have e7 : ("(" : String) = String.mk ['('] := rfl
  have e8 : (")" : String) = String.mk [')'] := rfl
  rw [e1, e2, e3, e4, e5, e6, e7, e8]
  simp only [h]
  simp only [List.mem_cons, List.mem_singleton, List.not_mem_nil, or_false, exists_eq_or_imp,
    exists_eq_left, or_assoc]

/-- The message loop of `validateNfsParameters`. -/
theorem illegalMsg_length (params : GoMap String) (acc : String) :
    acc.length ≤ (params.foldl
      (fun msg e => if hasIllegalChar e.2 then msg ++ ("Args " ++ e.2 ++ " has illegal access.") else msg)
      acc).length ∧
    ((∃ e ∈ params, hasIllegalChar e.2 = true) → acc.length < (params.foldl
      (fun msg e => if hasIllegalChar e.2 then msg ++ ("Args " ++ e.2 ++ " has illegal access.") else msg)
      acc).length) := by
  induction params generalizing acc with
  | nil => simp
  | cons e es ih =>
    rw [List.foldl_cons]
    by_cases hi : hasIllegalChar e.2 = true
    · rw [if_pos hi]
      have h1 := (ih (acc ++ ("Args " ++ e.2 ++ " has illegal access."))).1
      have h2 : acc.length < (acc ++ ("Args " ++ e.2 ++ " has illegal access.")).length := by
        simp only [String.length_append]
        have : ("Args " : String).length = 5 := by decide
        omega
      exact ⟨by omega, fun _ => by omega⟩
    · rw [if_neg hi]
      refine ⟨(ih acc).1, ?_⟩
      rintro ⟨x, hx, hxi⟩
      rcases List.mem_cons.mp hx with rfl | hx
      · exact absurd hxi hi
      · exact (ih acc).2 ⟨x, hx, hxi⟩

theorem validateNfsParameters_illegal (params : GoMap String)
    (h : ∃ e ∈ params, hasIllegalChar e.2 = true) : validateNfsParameters params ≠ none := by
  unfold validateNfsParameters
  have h2 := (illegalMsg_length params "").2 h
  have hne : params.foldl
      (fun msg e => if hasIllegalChar e.2 then msg ++ ("Args " ++ e.2 ++ " has illegal access.") else msg)
      "" ≠ "" := by
    intro e
    rw [e] at h2
    exact absurd h2 (by decide)
  simp only []
  rw [if_pos hne]
  simp

theorem validateNfsParameters_rest (params : GoMap String)
    (h : (∃ e, strconvParseUint (params.get mountPermissionKey) 8 32 = .error e) ∨
      params.has serverKey = false ∨ params.has basedirKey = false) :
    validateNfsParameters params ≠ none := by
  unfold validateNfsParameters validateMountPermissions
  simp only []
  split
  · simp
  · cases hp : strconvParseUint (params.get mountPermissionKey) 8 32 with
    | error e => simp
    | ok v =>
      rcases h with ⟨e, he⟩ | h | h
      · rw [hp] at he; cases he
      · simp [h]
      · simp only [h]
        split <;> simp

/-- C8: a create request that fails validation (empty name, a value with a
forbidden character, a `mountPermission` that does not parse, no `server` key
or no `basedir` key) is answered with `InvalidArgument`; the processing set
and the trace of host calls are left as they were. -/
theorem createVolume_invalid_request (ns : NodeServer) (h : Host) (req : CreateVolumeRequest)
    (st : SysState)
    (hbad : req.Name = "" ∨
      (∃ e ∈ req.Parameters, ∃ c ∈ "&|;$'`()".data, c ∈ e.2.data) ∨
      (∃ e, strconvParseUint (req.Parameters.get "mountPermission") 8 32 = .error e) ∨
      req.Parameters.has "server" = false ∨ req.Parameters.has "basedir" = false) :
    ∃ msg : String, validateVolumeRequest req = some msg ∧
      CreateVolume ns h req st = (.error ⟨.InvalidArgument, msg⟩, st) := by
  have hv : validateVolumeRequest req ≠ none := by
    unfold validateVolumeRequest
    rcases hbad with h1 | h2 | h3
    · simp [h1]
    · split
      · simp
      · apply validateNfsParameters_illegal
        obtain ⟨e, he, c, hc, hce⟩ := h2
        exact ⟨e, he, (hasIllegalChar_iff e.2).mpr ⟨c, hc, hce⟩⟩
    · split
      · simp
      · exact validateNfsParameters_rest _ h3
  cases hval : validateVolumeRequest req with
  | none => exact absurd hval hv
  | some err =>
    refine ⟨err, rfl, ?_⟩
    unfold CreateVolume
    rw [hval]

theorem createVolume_invalid_request_witness :
    ∃ msg : String,
      validateVolumeRequest ⟨"testCreateVolumeReq1", [("unknown", "1&1(1)1")]⟩ = some msg ∧
      CreateVolume (NewNodeServer okHost) okHost
          ⟨"testCreateVolumeReq1", [("unknown", "1&1(1)1")]⟩ ⟨NewIdempotency, []⟩ =
        (.error ⟨.InvalidArgument, msg⟩, ⟨NewIdempotency, []⟩) :=
  createVolume_invalid_request (NewNodeServer okHost) okHost
    ⟨"testCreateVolumeReq1", [("unknown", "1&1(1)1")]⟩ ⟨NewIdempotency, []⟩
    (Or.inr (Or.inl ⟨("unknown", "1&1(1)1"), by decide, '&', by decide, by decide⟩))

/-- C7: a request whose guard key is already in the processing set is turned
away with the state (processing set and trace of host calls) unchanged:
`CreateVolume`, for a valid request, with `Aborted`, `DeleteVolume` with
`FailedPrecondition`. -/
theorem guard_conflict_rejected (ns : NodeServer) (h : Host) :
    (∀ (req : CreateVolumeRequest) (st : SysState), validateVolumeRequest req = none →
        st.idempotency.IsProcessing req.Name = true →
        CreateVolume ns h req st = (.error ⟨.Aborted, "Volume is being handled"⟩, st)) ∧
      (∀ (req : DeleteVolumeRequest) (st : SysState),
        st.idempotency.IsProcessing req.VolumeId = true →
        DeleteVolume ns h req st = (.error ⟨.FailedPrecondition, "Volume is gone already"⟩, st)) := by
  constructor
  · intro req st hval hp
    unfold CreateVolume
    rw [hval]
    simp [hp]
  · intro req st hp
    unfold DeleteVolume
    simp [hp]

theorem guard_conflict_rejected_witness :
    CreateVolume (NewNodeServer okHost) okHost
        ⟨"vol1", [("server", "faleServer"), ("basedir", "fakeBaseDir"), ("subdir", "fakeSubDir"),
          ("mountPermission", "0755")]⟩ ⟨⟨[("vol1", true)]⟩, []⟩ =
        (.error ⟨.Aborted, "Volume is being handled"⟩, ⟨⟨[("vol1", true)]⟩, []⟩) ∧
      DeleteVolume (NewNodeServer okHost) okHost ⟨"faleServer#fakeBaseDir#fakeSubDir"⟩
          ⟨⟨[("faleServer#fakeBaseDir#fakeSubDir", true)]⟩, []⟩ =
        (.error ⟨.FailedPrecondition, "Volume is gone already"⟩,
          ⟨⟨[("faleServer#fakeBaseDir#fakeSubDir", true)]⟩, []⟩) :=
  ⟨(guard_conflict_rejected (NewNodeServer okHost) okHost).1 _ _ (by decide) (by decide),
    (guard_conflict_rejected (NewNodeServer okHost) okHost).2 _ _ (by decide)⟩

/-! ## CreateVolume and DeleteVolume -/

theorem validate_parse_ok (req : CreateVolumeRequest) (hval : validateVolumeRequest req = none) :
    ∃ perm : Nat, strconvParseUint (req.Parameters.get mountPermissionKey) 8 32 = .ok perm := by
  cases hp : strconvParseUint (req.Parameters.get mountPermissionKey) 8 32 with
  | ok v => exact ⟨v, rfl⟩
  | error e =>
    exact absurd hval (by
      unfold validateVolumeRequest
      split
      · simp
      · exact validateNfsParameters_rest _ (Or.inl ⟨e, hp⟩))

theorem withDefaultSubdir_find_ne (p : GoMap String) (name k : String) (hk : k ≠ subdirKey) :
    (withDefaultSubdir p name).find k = p.find k := by
  unfold withDefaultSubdir
  split
  · exact GoMap.find_set_ne _ _ _ _ hk
  · rfl

theorem withDefaultSubdir_get_ne (p : GoMap String) (name k : String) (hk : k ≠ subdirKey) :
    (withDefaultSubdir p name).get k = p.get k := by
  simp [GoMap.get, withDefaultSubdir_find_ne _ _ _ hk]

theorem withDefaultSubdir_get_subdir (req : CreateVolumeRequest) :
    (withDefaultSubdir req.Parameters req.Name).get subdirKey = specSubdir req := by
  unfold withDefaultSubdir specSubdir
  have hk : ("subdir" : String) = subdirKey := rfl
  rw [hk]
  cases hf : GoMap.find req.Parameters subdirKey with
  | none => simp [GoMap.has, GoMap.get, hf, GoMap.find_set_self]
  | some v =>
    by_cases hv : v = ""
    · simp [GoMap.has, GoMap.get, hf, hv, GoMap.find_set_self]
    · simp [GoMap.has, GoMap.get, hf, hv]

theorem getVolIdFromParams_withDefault (req : CreateVolumeRequest) :
    getVolIdFromParams (withDefaultSubdir req.Parameters req.Name) =
      getVolIdFromParams [("server", req.Parameters.get "server"),
        ("basedir", req.Parameters.get "basedir"), ("subdir", specSubdir req)] := by
  have h1 : GoMap.get [("server", req.Parameters.get "server"),
      ("basedir", req.Parameters.get "basedir"), ("subdir", specSubdir req)] serverKey
      = req.Parameters.get "server" := by
    simp [GoMap.get, GoMap.find, lookup_cons_eq, serverKey]
  have h2 : GoMap.get [("server", req.Parameters.get "server"),
      ("basedir", req.Parameters.get "basedir"), ("subdir", specSubdir req)] basedirKey
      = req.Parameters.get "basedir" := by
    simp [GoMap.get, GoMap.find, lookup_cons_eq, basedirKey]
  have h3 : GoMap.get [("server", req.Parameters.get "server"),
      ("basedir", req.Parameters.get "basedir"), ("subdir", specSubdir req)] subdirKey
      = specSubdir req := by
    simp [GoMap.get, GoMap.find, lookup_cons_eq, subdirKey]
  rw [getVolIdFromParams_eq, getVolIdFromParams_eq, h1, h2, h3, withDefaultSubdir_get_subdir,
    withDefaultSubdir_get_ne _ _ serverKey (by decide),
    withDefaultSubdir_get_ne _ _ basedirKey (by decide)]
  rfl

/-- C5: a create request that passes validation, whose name is not being
processed and whose premount and directory creation succeed is answered with
the identifier of `server`, `basedir` and the effective `subdir`, and with the
request's parameter map in which `subdir` is the effective `subdir` as volume
context. -/
theorem createVolume_success (ns : NodeServer) (h : Host) (req : CreateVolumeRequest)
    (st : SysState) (trace1 : List Call)
    (hval : validateVolumeRequest req = none)
    (hproc : st.idempotency.IsProcessing req.Name = false)
    (hpre : preMount ns h (withDefaultSubdir req.Parameters req.Name)
      (getVolIdFromParams (withDefaultSubdir req.Parameters req.Name))
      (getTargetParentPath (specSubdir req)) st.trace = (none, trace1))
    (hmk : ∀ perm : Nat,
      strconvParseUint (req.Parameters.get "mountPermission") 8 32 = .ok perm →
      (h.reply trace1 (.mkdirAll
        (getVolumtMountPath (getTargetParentPath (specSubdir req)) (specSubdir req)) perm)).err
        = none) :
    ∃ ctx : GoMap String,
      (CreateVolume ns h req st).1 =
          .ok ⟨⟨getVolIdFromParams [("server", req.Parameters.get "server"),
            ("basedir", req.Parameters.get "basedir"), ("subdir", specSubdir req)], 0, ctx⟩⟩ ∧
        ctx.get "subdir" = specSubdir req ∧
        ∀ k : String, k ≠ "subdir" → ctx.find k = req.Parameters.find k := by
  obtain ⟨perm, hperm⟩ := validate_parse_ok req hval
  refine ⟨withDefaultSubdir req.Parameters req.Name, ?_, withDefaultSubdir_get_subdir req,
    fun k hk => withDefaultSubdir_find_ne _ _ _ hk⟩
  have hmp : (withDefaultSubdir req.Parameters req.Name).get mountPermissionKey =
      req.Parameters.get mountPermissionKey :=
    withDefaultSubdir_get_ne _ _ _ (by decide)
  have hmk2 := hmk perm hperm
  rw [getVolIdFromParams_withDefault] at hpre
  unfold CreateVolume
  rw [hval]
  simp only [hproc, Bool.false_eq_true, if_false, withDefaultSubdir_get_subdir, hmp, hperm,
    Host.call, getVolIdFromParams_withDefault, hpre, hmk2]

set_option maxRecDepth 100000 in
theorem createVolume_success_witness :
    ∃ ctx : GoMap String,
      (CreateVolume (NewNodeServer okHost) okHost
          ⟨"vol1", [("server", "faleServer"), ("basedir", "fakeBaseDir"),
            ("subdir", "fakeSubDir"), ("mountPermission", "0755")]⟩ ⟨NewIdempotency, []⟩).1 =
          .ok ⟨⟨"faleServer#fakeBaseDir#fakeSubDir", 0, ctx⟩⟩ ∧
        ctx.get "subdir" = "fakeSubDir" ∧
        ∀ k : String, k ≠ "subdir" → ctx.find k =
          GoMap.find [("server", "faleServer"), ("basedir", "fakeBaseDir"),
            ("subdir", "fakeSubDir"), ("mountPermission", "0755")] k :=
  createVolume_success (NewNodeServer okHost) okHost
    ⟨"vol1", [("server", "faleServer"), ("basedir", "fakeBaseDir"),
      ("subdir", "fakeSubDir"), ("mountPermission", "0755")]⟩ ⟨NewIdempotency, []⟩
    [.isLikelyNotMountPoint "/tmp/fakeSubDir",
      .mount "faleServer:/fakeBaseDir" "/tmp/fakeSubDir" "nfs" [], .lstat "/tmp/fakeSubDir"]
    (by decide) (by decide) (by decide) (fun _ _ => rfl)


theorem deleteParams_eq (s b d : String) :
    GoMap.set (GoMap.set (GoMap.set ([] : GoMap String) serverKey s) basedirKey b) subdirKey d =
      [(serverKey, s), (basedirKey, b), (subdirKey, d)] := rfl

theorem deleteContext_mountPermission (h : Host) (s b d : String) :
    GoMap.get (List.foldl
      (fun (vc : GoMap String) (e : String × String) =>
        if stringsToLower h e.1 ≠ subdirKey then vc.set e.1 e.2 else vc)
      [(serverKey, stringsTrim s "/"), (basedirKey, filepathJoin ["/", stringsTrim b "/"]),
        (mountPermissionKey, "")]
      [(serverKey, s), (basedirKey, b), (subdirKey, d)]) mountPermissionKey = "" := by
  have h1 : stringsToLower h serverKey = "server" := rfl
  have h2 : stringsToLower h basedirKey = "basedir" := rfl
  have h3 : stringsToLower h subdirKey = "subdir" := rfl
  simp only [List.foldl, h1, h2, h3]
  rfl

theorem preMount_delete (h : Host) (s b d volId tpp : String) (tr : List Call) :
    ∃ msg : String, preMount (NewNodeServer h) h [(serverKey, s), (basedirKey, b), (subdirKey, d)]
      volId tpp tr = (some ⟨.InvalidArgument, msg⟩, tr) := by
  have hg1 : GoMap.get [(serverKey, s), (basedirKey, b), (subdirKey, d)] serverKey = s := rfl
  have hg2 : GoMap.get [(serverKey, s), (basedirKey, b), (subdirKey, d)] basedirKey = b := rfl
  have hg3 : GoMap.get [(serverKey, s), (basedirKey, b), (subdirKey, d)] mountPermissionKey = "" :=
    rfl
  have hp : strconvParseUint "" 8 32 = .error .ErrSyntax := rfl
  unfold preMount NewNodeServer NodePublishVolume
  simp only [hg1, hg2, hg3, deleteContext_mountPermission, hp]
  by_cases hv : volId = ""
  · exact ⟨_, by rw [if_pos hv]⟩
  · by_cases ht : tpp = ""
    · exact ⟨_, by rw [if_neg hv, if_pos ht]⟩
    · exact ⟨_, by rw [if_neg hv, if_neg ht]⟩

/-- C6: with the premount routed through `NodePublishVolume`, `DeleteVolume`
succeeds for no identifier, host and state. The parameter map it rebuilds from
the identifier has no `mountPermission`, so the premount is refused before any
host call; for an identifier that decodes the answer is `Internal`, and the
identifier stays in the processing set. -/
theorem deleteVolume_never_succeeds (h : Host) :
    (∀ (req : DeleteVolumeRequest) (st : SysState),
        ∃ e : Status, (DeleteVolume (NewNodeServer h) h req st).1 = .error e) ∧
      ∀ trace : List Call,
        DeleteVolume (NewNodeServer h) h ⟨"faleServer#fakeBaseDir#fakeSubDir"⟩
            ⟨NewIdempotency, trace⟩ =
          (.error ⟨.Internal, "rpc error: code = InvalidArgument desc = " ++
              h.sprintf (h.numErrorText "" .ErrSyntax)⟩,
            ⟨⟨[("faleServer#fakeBaseDir#fakeSubDir", true)]⟩, trace⟩) := by
  constructor
  · intro req st
    unfold DeleteVolume
    by_cases hp : st.idempotency.IsProcessing req.VolumeId = true
    · exact ⟨_, by rw [if_pos hp]⟩
    · rw [if_neg hp]
      by_cases hv : req.VolumeId = ""
      · exact ⟨_, by rw [if_pos hv]⟩
      · rw [if_neg hv]
        rcases hg : getParamsFromVolId req.VolumeId with ⟨s, b, d, _ | err⟩
        · simp only [deleteParams_eq]
          obtain ⟨msg, hm⟩ := preMount_delete h s b d req.VolumeId
            (getTargetParentPath (GoMap.get [(serverKey, s), (basedirKey, b), (subdirKey, d)]
              subdirKey)) st.trace
          rw [hm]
          exact ⟨_, rfl⟩
        · exact ⟨_, rfl⟩
  · intro trace
    rfl


theorem isProcessing_add (i : Idempotency) (k : String) :
    (i.AddProcessing k).IsProcessing k = true := by
  simp [Idempotency.AddProcessing, Idempotency.IsProcessing, GoMap.has_set_self]

theorem isProcessing_remove (i : Idempotency) (k : String) :
    (i.RemoveProcessing k).IsProcessing k = false := by
  simp [Idempotency.RemoveProcessing, Idempotency.IsProcessing, GoMap.has_delete_self]

theorem createVolume_premount_failed (ns : NodeServer) (h : Host) (req : CreateVolumeRequest)
    (st : SysState) (err : Status) (trace1 : List Call)
    (hval : validateVolumeRequest req = none)
    (hproc : st.idempotency.IsProcessing req.Name = false)
    (hpre : preMount ns h (withDefaultSubdir req.Parameters req.Name)
      (getVolIdFromParams (withDefaultSubdir req.Parameters req.Name))
      (getTargetParentPath (specSubdir req)) st.trace = (some err, trace1)) :
    CreateVolume ns h req st =
      (.error ⟨.Internal, err.Error⟩, ⟨st.idempotency.AddProcessing req.Name, trace1⟩) := by
  unfold CreateVolume
  rw [hval]
  simp only [hproc, Bool.false_eq_true, if_false, withDefaultSubdir_get_subdir, hpre]

theorem deleteVolume_premount_failed (ns : NodeServer) (h : Host) (req : DeleteVolumeRequest)
    (st : SysState) (s b d : String) (err : Status) (trace1 : List Call)
    (hproc : st.idempotency.IsProcessing req.VolumeId = false)
    (hid : req.VolumeId ≠ "")
    (hdec : getParamsFromVolId req.VolumeId = (s, b, d, none))
    (hpre : preMount ns h [(serverKey, s), (basedirKey, b), (subdirKey, d)] req.VolumeId
      (getTargetParentPath d) st.trace = (some err, trace1)) :
    DeleteVolume ns h req st =
      (.error ⟨.Internal, err.Error⟩, ⟨st.idempotency.AddProcessing req.VolumeId, trace1⟩) := by
  have hg : GoMap.get [(serverKey, s), (basedirKey, b), (subdirKey, d)] subdirKey = d := rfl
  unfold DeleteVolume
  simp only [hproc, Bool.false_eq_true, if_false, if_neg hid, hdec, deleteParams_eq, hg, hpre]

/-- C9: what the code does when the premount fails. `CreateVolume` and
`DeleteVolume` answer `Internal`, but they return before the deferred cleanup
is registered: the guard key stays in the processing set and the same request,
sent again, is turned away as conflicting. -/
theorem premount_failure_keeps_guard (ns : NodeServer) (h : Host) :
    (∀ (req : CreateVolumeRequest) (st : SysState) (err : Status) (trace1 : List Call),
        validateVolumeRequest req = none →
        st.idempotency.IsProcessing req.Name = false →
        preMount ns h (withDefaultSubdir req.Parameters req.Name)
          (getVolIdFromParams (withDefaultSubdir req.Parameters req.Name))
          (getTargetParentPath (specSubdir req)) st.trace = (some err, trace1) →
        ∃ st2 : SysState,
          CreateVolume ns h req st = (.error ⟨.Internal, err.Error⟩, st2) ∧
            st2.idempotency.IsProcessing req.Name = true ∧
            CreateVolume ns h req st2 = (.error ⟨.Aborted, "Volume is being handled"⟩, st2)) ∧
      (∀ (req : DeleteVolumeRequest) (st : SysState) (s b d : String) (err : Status)
          (trace1 : List Call),
        st.idempotency.IsProcessing req.VolumeId = false →
        req.VolumeId ≠ "" →
        getParamsFromVolId req.VolumeId = (s, b, d, none) →
        preMount ns h [(serverKey, s), (basedirKey, b), (subdirKey, d)] req.VolumeId
          (getTargetParentPath d) st.trace = (some err, trace1) →
        ∃ st2 : SysState,
          DeleteVolume ns h req st = (.error ⟨.Internal, err.Error⟩, st2) ∧
            st2.idempotency.IsProcessing req.VolumeId = true ∧
            DeleteVolume ns h req st2 =
              (.error ⟨.FailedPrecondition, "Volume is gone already"⟩, st2)) := by
  constructor
  · intro req st err trace1 hval hproc hpre
    refine ⟨⟨st.idempotency.AddProcessing req.Name, trace1⟩,
      createVolume_premount_failed ns h req st err trace1 hval hproc hpre,
      isProcessing_add _ _, ?_⟩
    unfold CreateVolume
    rw [hval]
    simp only [isProcessing_add, if_true]
  · intro req st s b d err trace1 hproc hid hdec hpre
    refine ⟨⟨st.idempotency.AddProcessing req.VolumeId, trace1⟩,
      deleteVolume_premount_failed ns h req st s b d err trace1 hproc hid hdec hpre,
      isProcessing_add _ _, ?_⟩
    unfold DeleteVolume
    simp only [isProcessing_add, if_true]

set_option maxRecDepth 100000 in
theorem premount_failure_keeps_guard_witness :
    (∃ st2 : SysState,
        CreateVolume (NewNodeServer mountFailHost) mountFailHost
            ⟨"vol1", [("server", "faleServer"), ("basedir", "fakeBaseDir"),
              ("subdir", "fakeSubDir"), ("mountPermission", "0755")]⟩ ⟨NewIdempotency, []⟩ =
          (.error ⟨.Internal,
            "rpc error: code = Internal desc = mount failed: connection timed out"⟩, st2) ∧
          st2.idempotency.IsProcessing "vol1" = true ∧
          CreateVolume (NewNodeServer mountFailHost) mountFailHost
              ⟨"vol1", [("server", "faleServer"), ("basedir", "fakeBaseDir"),
                ("subdir", "fakeSubDir"), ("mountPermission", "0755")]⟩ st2 =
            (.error ⟨.Aborted, "Volume is being handled"⟩, st2)) ∧
      ∃ st2 : SysState,
        DeleteVolume (NewNodeServer okHost) okHost ⟨"faleServer#fakeBaseDir#fakeSubDir"⟩
            ⟨NewIdempotency, []⟩ =
          (.error ⟨.Internal, "rpc error: code = InvalidArgument desc = "⟩, st2) ∧
          st2.idempotency.IsProcessing "faleServer#fakeBaseDir#fakeSubDir" = true ∧
          DeleteVolume (NewNodeServer okHost) okHost ⟨"faleServer#fakeBaseDir#fakeSubDir"⟩ st2 =
            (.error ⟨.FailedPrecondition, "Volume is gone already"⟩, st2) :=
  ⟨(premount_failure_keeps_guard (NewNodeServer mountFailHost) mountFailHost).1
      ⟨"vol1", [("server", "faleServer"), ("basedir", "fakeBaseDir"),
        ("subdir", "fakeSubDir"), ("mountPermission", "0755")]⟩ ⟨NewIdempotency, []⟩
      ⟨.Internal, "mount failed: connection timed out"⟩
      [.isLikelyNotMountPoint "/tmp/fakeSubDir",
        .mount "faleServer:/fakeBaseDir" "/tmp/fakeSubDir" "nfs" []]
      (by decide) (by decide) (by decide),
    (premount_failure_keeps_guard (NewNodeServer okHost) okHost).2
      ⟨"faleServer#fakeBaseDir#fakeSubDir"⟩ ⟨NewIdempotency, []⟩
      "faleServer" "fakeBaseDir" "fakeSubDir" ⟨.InvalidArgument, ""⟩ []
      (by decide) (by decide) (by decide) (by decide)⟩


theorem preMount_congr (ns ns2 : NodeServer) (h : Host) (p : GoMap String)
    (volId tpp : String) (tr : List Call) (hns : ns2.NodePublishVolume = ns.NodePublishVolume) :
    preMount ns2 h p volId tpp tr = preMount ns h p volId tpp tr := by
  unfold preMount
  rw [hns]

theorem deferredCleanup_eq (ns : NodeServer) (volId tpp key : String) (idem : Idempotency)
    (tr : List Call) :
    deferredCleanup ns volId tpp key idem tr =
      ⟨idem.RemoveProcessing key,
        (ns.NodeUnpublishVolume { VolumeId := volId, TargetPath := tpp } tr).2⟩ := by
  unfold deferredCleanup preUnmount
  rcases ns.NodeUnpublishVolume { VolumeId := volId, TargetPath := tpp } tr with ⟨_ | _, t⟩ <;> rfl

theorem createVolume_after_premount (ns : NodeServer) (h : Host) (req : CreateVolumeRequest)
    (st : SysState) (trace1 : List Call) (perm : Nat)
    (hval : validateVolumeRequest req = none)
    (hproc : st.idempotency.IsProcessing req.Name = false)
    (hperm : strconvParseUint (req.Parameters.get mountPermissionKey) 8 32 = .ok perm)
    (hpre : preMount ns h (withDefaultSubdir req.Parameters req.Name)
      (getVolIdFromParams (withDefaultSubdir req.Parameters req.Name))
      (getTargetParentPath (specSubdir req)) st.trace = (none, trace1)) :
    CreateVolume ns h req st =
      (match (h.reply trace1 (.mkdirAll
          (getVolumtMountPath (getTargetParentPath (specSubdir req)) (specSubdir req)) perm)).err with
        | some err => .error ⟨.Internal, err.msg⟩
        | none => .ok ⟨⟨getVolIdFromParams (withDefaultSubdir req.Parameters req.Name), 0,
            withDefaultSubdir req.Parameters req.Name⟩⟩,
        ⟨(st.idempotency.AddProcessing req.Name).RemoveProcessing req.Name,
          (ns.NodeUnpublishVolume
            { VolumeId := getVolIdFromParams (withDefaultSubdir req.Parameters req.Name),
              TargetPath := getTargetParentPath (specSubdir req) }
            (trace1 ++ [.mkdirAll
              (getVolumtMountPath (getTargetParentPath (specSubdir req)) (specSubdir req))
              perm])).2⟩) := by
  have hmp : (withDefaultSubdir req.Parameters req.Name).get mountPermissionKey =
      req.Parameters.get mountPermissionKey :=
    withDefaultSubdir_get_ne _ _ _ (by decide)
  unfold CreateVolume
  rw [hval]
  simp only [hproc, Bool.false_eq_true, if_false, withDefaultSubdir_get_subdir, hmp, hperm,
    Host.call, hpre, deferredCleanup_eq]
  cases (h.reply trace1 (.mkdirAll
      (getVolumtMountPath (getTargetParentPath (specSubdir req)) (specSubdir req)) perm)).err <;> rfl

theorem deleteVolume_after_premount (ns : NodeServer) (h : Host) (req : DeleteVolumeRequest)
    (st : SysState) (s b d : String) (trace1 : List Call)
    (hproc : st.idempotency.IsProcessing req.VolumeId = false)
    (hid : req.VolumeId ≠ "")
    (hdec : getParamsFromVolId req.VolumeId = (s, b, d, none))
    (hpre : preMount ns h [(serverKey, s), (basedirKey, b), (subdirKey, d)] req.VolumeId
      (getTargetParentPath d) st.trace = (none, trace1)) :
    DeleteVolume ns h req st =
      (match (h.reply trace1 (.removeAll (getVolumtMountPath (getTargetParentPath d) d))).err with
        | some err => .error ⟨.Internal, err.msg⟩
        | none => .ok (),
        ⟨(st.idempotency.AddProcessing req.VolumeId).RemoveProcessing req.VolumeId,
          (ns.NodeUnpublishVolume
            { VolumeId := req.VolumeId, TargetPath := getTargetParentPath d }
            (trace1 ++ [.removeAll (getVolumtMountPath (getTargetParentPath d) d)])).2⟩) := by
  have hg : GoMap.get [(serverKey, s), (basedirKey, b), (subdirKey, d)] subdirKey = d := rfl
  have hrr : ∀ (i : Idempotency) (k : String),
      (i.RemoveProcessing k).RemoveProcessing k = i.RemoveProcessing k := by
    intro i k
    simp [Idempotency.RemoveProcessing, GoMap.delete, List.filter_filter]
  unfold DeleteVolume
  simp only [hproc, Bool.false_eq_true, if_false, if_neg hid, hdec, deleteParams_eq, hg, hpre,
    Host.call, deferredCleanup_eq, hrr]
  cases (h.reply trace1 (.removeAll (getVolumtMountPath (getTargetParentPath d) d))).err <;> rfl

theorem preMount_ok_nonempty (h : Host) (p : GoMap String) (volId tpp : String)
    (tr tr1 : List Call) (hpre : preMount (NewNodeServer h) h p volId tpp tr = (none, tr1)) :
    volId ≠ "" ∧ tpp ≠ "" := by
  unfold preMount NewNodeServer NodePublishVolume at hpre
  constructor
  · intro hv
    simp [hv] at hpre
  · intro ht
    by_cases hv : volId = ""
    · simp [hv] at hpre
    · simp [hv, ht] at hpre

theorem nodeUnpublish_trace (h : Host) (volId tpp : String) (tr : List Call)
    (hv : volId ≠ "") (ht : tpp ≠ "") :
    (NodeUnpublishVolume h { VolumeId := volId, TargetPath := tpp } tr).2 =
      tr ++ [.cleanupMountPoint tpp] := by
  unfold NodeUnpublishVolume
  simp only [if_neg hv, if_neg ht, Host.call]
  cases (h.reply tr (.cleanupMountPoint tpp)).err <;> rfl


/-- C10: once the premount has succeeded, `CreateVolume` and `DeleteVolume`
end with the unmount of the same target parent path, issued after the
directory step whatever its outcome, and with the guard key out of the
processing set; the answer does not depend on what the unmount returns. With
the driver's own node server the last host call of `CreateVolume` is the
cleanup of that mount point. -/
theorem cleanup_after_premount (h : Host) :
    (∀ (ns : NodeServer) (req : CreateVolumeRequest) (st : SysState) (trace1 : List Call),
        validateVolumeRequest req = none →
        st.idempotency.IsProcessing req.Name = false →
        preMount ns h (withDefaultSubdir req.Parameters req.Name)
          (getVolIdFromParams (withDefaultSubdir req.Parameters req.Name))
          (getTargetParentPath (specSubdir req)) st.trace = (none, trace1) →
        ∃ perm : Nat,
          (CreateVolume ns h req st).2.trace =
              (ns.NodeUnpublishVolume
                { VolumeId := getVolIdFromParams (withDefaultSubdir req.Parameters req.Name),
                  TargetPath := getTargetParentPath (specSubdir req) }
                (trace1 ++ [.mkdirAll
                  (getVolumtMountPath (getTargetParentPath (specSubdir req)) (specSubdir req))
                  perm])).2 ∧
            (CreateVolume ns h req st).2.idempotency.IsProcessing req.Name = false ∧
            ∀ ns2 : NodeServer, ns2.NodePublishVolume = ns.NodePublishVolume →
              (CreateVolume ns2 h req st).1 = (CreateVolume ns h req st).1) ∧
      (∀ (ns : NodeServer) (req : DeleteVolumeRequest) (st : SysState) (s b d : String)
          (trace1 : List Call),
        st.idempotency.IsProcessing req.VolumeId = false →
        req.VolumeId ≠ "" →
        getParamsFromVolId req.VolumeId = (s, b, d, none) →
        preMount ns h [(serverKey, s), (basedirKey, b), (subdirKey, d)] req.VolumeId
          (getTargetParentPath d) st.trace = (none, trace1) →
        (DeleteVolume ns h req st).2.trace =
            (ns.NodeUnpublishVolume
              { VolumeId := req.VolumeId, TargetPath := getTargetParentPath d }
              (trace1 ++ [.removeAll (getVolumtMountPath (getTargetParentPath d) d)])).2 ∧
          (DeleteVolume ns h req st).2.idempotency.IsProcessing req.VolumeId = false ∧
          ∀ ns2 : NodeServer, ns2.NodePublishVolume = ns.NodePublishVolume →
            (DeleteVolume ns2 h req st).1 = (DeleteVolume ns h req st).1) ∧
      (∀ (req : CreateVolumeRequest) (st : SysState) (trace1 : List Call),
        validateVolumeRequest req = none →
        st.idempotency.IsProcessing req.Name = false →
        preMount (NewNodeServer h) h (withDefaultSubdir req.Parameters req.Name)
          (getVolIdFromParams (withDefaultSubdir req.Parameters req.Name))
          (getTargetParentPath (specSubdir req)) st.trace = (none, trace1) →
        ∃ perm : Nat,
          (CreateVolume (NewNodeServer h) h req st).2.trace =
            trace1 ++ [.mkdirAll
                (getVolumtMountPath (getTargetParentPath (specSubdir req)) (specSubdir req)) perm,
              .cleanupMountPoint (getTargetParentPath (specSubdir req))]) := by
  refine ⟨?_, ?_, ?_⟩
  · intro ns req st trace1 hval hproc hpre
    obtain ⟨perm, hperm⟩ := validate_parse_ok req hval
    refine ⟨perm, ?_, ?_, ?_⟩
    · rw [createVolume_after_premount ns h req st trace1 perm hval hproc hperm hpre]
    · rw [createVolume_after_premount ns h req st trace1 perm hval hproc hperm hpre]
      exact isProcessing_remove _ _
    · intro ns2 hns
      rw [createVolume_after_premount ns h req st trace1 perm hval hproc hperm hpre,
        createVolume_after_premount ns2 h req st trace1 perm hval hproc hperm
          (by rw [preMount_congr ns ns2 h _ _ _ _ hns]; exact hpre)]
  · intro ns req st s b d trace1 hproc hid hdec hpre
    refine ⟨?_, ?_, ?_⟩
    · rw [deleteVolume_after_premount ns h req st s b d trace1 hproc hid hdec hpre]
    · rw [deleteVolume_after_premount ns h req st s b d trace1 hproc hid hdec hpre]
      exact isProcessing_remove _ _
    · intro ns2 hns
      rw [deleteVolume_after_premount ns h req st s b d trace1 hproc hid hdec hpre,
        deleteVolume_after_premount ns2 h req st s b d trace1 hproc hid hdec
          (by rw [preMount_congr ns ns2 h _ _ _ _ hns]; exact hpre)]
  · intro req st trace1 hval hproc hpre
    obtain ⟨perm, hperm⟩ := validate_parse_ok req hval
    obtain ⟨hv, ht⟩ := preMount_ok_nonempty h _ _ _ _ _ hpre
    refine ⟨perm, ?_⟩
    rw [createVolume_after_premount (NewNodeServer h) h req st trace1 perm hval hproc hperm hpre]
    show (NodeUnpublishVolume h _ _).2 = _
    rw [nodeUnpublish_trace h _ _ _ hv ht]
    simp

set_option maxRecDepth 100000 in
theorem cleanup_after_premount_witness :
    (∃ perm : Nat,
        (CreateVolume (NewNodeServer okHost) okHost
            ⟨"vol1", [("server", "faleServer"), ("basedir", "fakeBaseDir"),
              ("subdir", "fakeSubDir"), ("mountPermission", "0755")]⟩
            ⟨NewIdempotency, []⟩).2.trace =
          [.isLikelyNotMountPoint "/tmp/fakeSubDir",
            .mount "faleServer:/fakeBaseDir" "/tmp/fakeSubDir" "nfs" [],
            .lstat "/tmp/fakeSubDir"] ++
            [.mkdirAll "/tmp/fakeSubDir/fakeSubDir" perm,
              .cleanupMountPoint "/tmp/fakeSubDir"]) ∧
      (∃ perm : Nat,
        (CreateVolume stubNodeServer mountFailHost
            ⟨"vol1", [("server", "faleServer"), ("basedir", "fakeBaseDir"),
              ("subdir", "fakeSubDir"), ("mountPermission", "0755")]⟩
            ⟨NewIdempotency, []⟩).2.trace =
          (stubNodeServer.NodeUnpublishVolume
            { VolumeId := "faleServer#fakeBaseDir#fakeSubDir", TargetPath := "/tmp/fakeSubDir" }
            ([] ++ [.mkdirAll "/tmp/fakeSubDir/fakeSubDir" perm])).2) ∧
      (DeleteVolume stubNodeServer okHost ⟨"faleServer#fakeBaseDir#fakeSubDir"⟩
          ⟨NewIdempotency, []⟩).2.idempotency.IsProcessing
        "faleServer#fakeBaseDir#fakeSubDir" = false :=
  ⟨(cleanup_after_premount okHost).2.2
      ⟨"vol1", [("server", "faleServer"), ("basedir", "fakeBaseDir"),
        ("subdir", "fakeSubDir"), ("mountPermission", "0755")]⟩ ⟨NewIdempotency, []⟩
      [.isLikelyNotMountPoint "/tmp/fakeSubDir",
        .mount "faleServer:/fakeBaseDir" "/tmp/fakeSubDir" "nfs" [], .lstat "/tmp/fakeSubDir"]
      (by decide) (by decide) (by decide),
    ((cleanup_after_premount mountFailHost).1 stubNodeServer
      ⟨"vol1", [("server", "faleServer"), ("basedir", "fakeBaseDir"),
        ("subdir", "fakeSubDir"), ("mountPermission", "0755")]⟩ ⟨NewIdempotency, []⟩ []
      (by decide) (by decide) (by decide)).imp (fun _ hp => hp.1),
    ((cleanup_after_premount okHost).2.1 stubNodeServer ⟨"faleServer#fakeBaseDir#fakeSubDir"⟩
      ⟨NewIdempotency, []⟩ "faleServer" "fakeBaseDir" "fakeSubDir" []
      (by decide) (by decide) (by decide) (by decide)).2.1⟩

/-! ## DeleteVolume on ids it cannot use, and the guard -/

theorem getParamsFromVolId_cases (id : String) :
    getParamsFromVolId id = ("", "", "", some "invalid volume ID which cannot be parsed") ∨
      ∃ a b c : String, getParamsFromVolId id = (a, b, c, none) := by
  unfold getParamsFromVolId
  rcases stringsSplit id seperator with _ | ⟨a, _ | ⟨b, _ | ⟨c, _ | ⟨d, r⟩⟩⟩⟩
  · left; rfl
  · left; rfl
  · left; rfl
  · right; exact ⟨a, b, c, rfl⟩
  · left; rfl

/-- C11: a delete request with a non-empty id that is not being processed and
does not decode is answered with `InvalidArgument` and no response; no host
call is made, the id stays in the processing set, and the same request sent
again is answered with `FailedPrecondition`. -/
theorem deleteVolume_malformed_id (ns : NodeServer) (h : Host) (req : DeleteVolumeRequest)
    (st : SysState)
    (hne : req.VolumeId ≠ "")
    (hproc : st.idempotency.IsProcessing req.VolumeId = false)
    (hdec : (getParamsFromVolId req.VolumeId).2.2.2 ≠ none) :
    ∃ st2 : SysState,
      DeleteVolume ns h req st =
          (.error ⟨.InvalidArgument, "invalid volume ID which cannot be parsed"⟩, st2) ∧
        st2.trace = st.trace ∧
        st2.idempotency = st.idempotency.AddProcessing req.VolumeId ∧
        st2.idempotency.IsProcessing req.VolumeId = true ∧
        DeleteVolume ns h req st2 =
          (.error ⟨.FailedPrecondition, "Volume is gone already"⟩, st2) := by
  refine ⟨⟨st.idempotency.AddProcessing req.VolumeId, st.trace⟩, ?_, rfl, rfl,
    isProcessing_add _ _, ?_⟩
  · unfold DeleteVolume
    rw [hproc]
    simp only [Bool.false_eq_true, if_false, if_neg hne]
    rcases getParamsFromVolId_cases req.VolumeId with hg | ⟨a, b, c, hg⟩
    · rw [hg]
    · rw [hg] at hdec
      exact absurd rfl hdec
  · unfold DeleteVolume
    simp only [isProcessing_add, if_true]

theorem deleteVolume_malformed_id_witness :
    ∃ st2 : SysState,
      DeleteVolume (NewNodeServer okHost) okHost ⟨"testDeleteVolumeReq1"⟩ ⟨NewIdempotency, []⟩ =
          (.error ⟨.InvalidArgument, "invalid volume ID which cannot be parsed"⟩, st2) ∧
        st2.trace = [] ∧
        st2.idempotency = NewIdempotency.AddProcessing "testDeleteVolumeReq1" ∧
        st2.idempotency.IsProcessing "testDeleteVolumeReq1" = true ∧
        DeleteVolume (NewNodeServer okHost) okHost ⟨"testDeleteVolumeReq1"⟩ st2 =
          (.error ⟨.FailedPrecondition, "Volume is gone already"⟩, st2) :=
  deleteVolume_malformed_id (NewNodeServer okHost) okHost ⟨"testDeleteVolumeReq1"⟩
    ⟨NewIdempotency, []⟩ (by decide) (by decide) (by decide)

/-- C12 as stated fails: after one `DeleteVolume` with the empty id, which is
answered with `InvalidArgument`, the empty id is in the processing set and the
next `DeleteVolume` with the empty id is answered with `FailedPrecondition`. -/
theorem deleteVolume_empty_id_counterexample :
    (DeleteVolume (NewNodeServer okHost) okHost ⟨""⟩ ⟨NewIdempotency, []⟩).1 =
        .error ⟨.InvalidArgument, "Volume ID is required"⟩ ∧
      (DeleteVolume (NewNodeServer okHost) okHost ⟨""⟩
          (DeleteVolume (NewNodeServer okHost) okHost ⟨""⟩ ⟨NewIdempotency, []⟩).2).1 =
        .error ⟨.FailedPrecondition, "Volume is gone already"⟩ := by
  decide

/-- C12 amended: in every state whose processing set does not hold the empty
id, `DeleteVolume` with the empty id is answered with `InvalidArgument`, and no
host call is made. -/
theorem deleteVolume_empty_id (ns : NodeServer) (h : Host) (st : SysState)
    (hproc : st.idempotency.IsProcessing "" = false) :
    (DeleteVolume ns h ⟨""⟩ st).1 = .error ⟨.InvalidArgument, "Volume ID is required"⟩ ∧
      (DeleteVolume ns h ⟨""⟩ st).2.trace = st.trace := by
  unfold DeleteVolume
  simp only [hproc, Bool.false_eq_true, if_false, if_true, and_self]

theorem deleteVolume_empty_id_witness :
    (DeleteVolume (NewNodeServer okHost) okHost ⟨""⟩ ⟨⟨[("testVolumeId1", true)]⟩, []⟩).1 =
        .error ⟨.InvalidArgument, "Volume ID is required"⟩ ∧
      (DeleteVolume (NewNodeServer okHost) okHost ⟨""⟩
        ⟨⟨[("testVolumeId1", true)]⟩, []⟩).2.trace = [] :=
  deleteVolume_empty_id (NewNodeServer okHost) okHost ⟨⟨[("testVolumeId1", true)]⟩, []⟩
    (by decide)

theorem GoMap.find_delete_ne {V : Type} (m : GoMap V) (k k2 : String) (h : k2 ≠ k) :
    (m.delete k).find k2 = m.find k2 := by
  unfold GoMap.delete GoMap.find
  induction m with
  | nil => simp
  | cons e es ih =>
    obtain ⟨a, b⟩ := e
    by_cases ha : a = k
    · rw [List.filter_cons_of_neg (by simp [ha]), lookup_cons_eq, ih]
      have : ¬ k2 = a := by rw [ha]; exact h
      rw [if_neg this]
    · rw [List.filter_cons_of_pos (by simp [ha]), lookup_cons_eq, lookup_cons_eq, ih]

theorem GoMap.has_delete_ne {V : Type} (m : GoMap V) (k k2 : String) (h : k2 ≠ k) :
    (m.delete k).has k2 = m.has k2 := by
  simp [GoMap.has, GoMap.find_delete_ne _ _ _ h]

theorem isProcessing_add_ne (i : Idempotency) (x y : String) (h : y ≠ x) :
    (i.AddProcessing x).IsProcessing y = i.IsProcessing y := by
  simp [Idempotency.AddProcessing, Idempotency.IsProcessing, GoMap.has_set_ne _ _ _ _ h]

theorem isProcessing_remove_ne (i : Idempotency) (x y : String) (h : y ≠ x) :
    (i.RemoveProcessing x).IsProcessing y = i.IsProcessing y := by
  simp [Idempotency.RemoveProcessing, Idempotency.IsProcessing, GoMap.has_delete_ne _ _ _ h]

theorem run_never_added (ops : List GuardOp) (i : Idempotency) (x : String)
    (hi : i.IsProcessing x = false) (hops : GuardOp.add x ∉ ops) :
    (i.run ops).IsProcessing x = false := by
  induction ops generalizing i with
  | nil => exact hi
  | cons o os ih =>
    have ho : GuardOp.add x ≠ o := fun e => hops (by simp [e])
    have hos : GuardOp.add x ∉ os := fun e => hops (by simp [e])
    show ((i.applyOp o).run os).IsProcessing x = false
    apply ih _ _ hos
    cases o with
    | add y =>
      have hy : x ≠ y := fun e => ho (by rw [e])
      show (i.AddProcessing y).IsProcessing x = false
      rw [isProcessing_add_ne _ _ _ hy, hi]
    | remove y =>
      show (i.RemoveProcessing y).IsProcessing x = false
      by_cases hy : x = y
      · subst hy; exact isProcessing_remove _ _
      · rw [isProcessing_remove_ne _ _ _ hy, hi]

/-- C14: in every guard state, `IsProcessing x` is true after `AddProcessing x`
and false after `RemoveProcessing x`, however often `x` was added before; and
after any sequence of guard calls on a new guard that never adds `x`,
`IsProcessing x` is false. -/
theorem guard_laws (i : Idempotency) (x : String) :
    (i.AddProcessing x).IsProcessing x = true ∧
      (i.RemoveProcessing x).IsProcessing x = false ∧
      (((i.AddProcessing x).AddProcessing x).RemoveProcessing x).IsProcessing x = false ∧
      NewIdempotency.IsProcessing x = false ∧
      ∀ ops : List GuardOp, GuardOp.add x ∉ ops →
        (NewIdempotency.run ops).IsProcessing x = false :=
  ⟨isProcessing_add i x, isProcessing_remove i x, isProcessing_remove _ x, rfl,
    fun ops hops => run_never_added ops NewIdempotency x rfl hops⟩

theorem guard_laws_witness :
    (NewIdempotency.run [.add "testVolumeId1", .add "testVolumeId3", .remove "testVolumeId2",
      .remove "testVolumeId3"]).IsProcessing "testVolumeId2" = false :=
  (guard_laws NewIdempotency "testVolumeId2").2.2.2.2
    [.add "testVolumeId1", .add "testVolumeId3", .remove "testVolumeId2",
      .remove "testVolumeId3"] (by decide)

/-! ## The validation rules -/

theorem hasIllegalChar_eq_isOffending (value : String) :
    hasIllegalChar value = isOffending value := by
  have h1 := hasIllegalChar_iff value
  have h2 : isOffending value = true ↔ ∃ c ∈ "&|;$'`()".data, c ∈ value.data := by
    unfold isOffending
    simp only [List.any_eq_true]
    constructor
    · rintro ⟨c, hc, hv⟩
      exact ⟨c, hc, by simpa using hv⟩
    · rintro ⟨c, hc, hv⟩
      exact ⟨c, hc, by simpa using hv⟩
  cases hh : hasIllegalChar value <;> cases ho : isOffending value <;> simp_all

theorem foldl_append_string (l : List String) (acc : String) :
    l.foldl (fun r s => r ++ s) acc = acc ++ l.foldl (fun r s => r ++ s) "" := by
  induction l generalizing acc with
  | nil => simp
  | cons a as ih =>
    rw [List.foldl_cons, List.foldl_cons, ih, ih ("" ++ a)]
    simp [String.append_assoc]

theorem string_join_cons (a : String) (l : List String) :
    String.join (a :: l) = a ++ String.join l := by
  unfold String.join
  rw [List.foldl_cons, foldl_append_string]
  simp

theorem illegalMsg_eq (params : GoMap String) (acc : String) :
    params.foldl
      (fun msg e => if hasIllegalChar e.2 then msg ++ ("Args " ++ e.2 ++ " has illegal access.") else msg)
      acc = acc ++ String.join (illegalFragments params) := by
  induction params generalizing acc with
  | nil => simp [illegalFragments, String.join]
  | cons e es ih =>
    rw [List.foldl_cons, ih]
    unfold illegalFragments
    by_cases hi : hasIllegalChar e.2 = true
    · have ho : isOffending e.2 = true := by rw [← hasIllegalChar_eq_isOffending]; exact hi
      rw [if_pos hi, List.filter_cons, if_pos ho, List.map_cons, string_join_cons,
        String.append_assoc]
    · have ho : ¬ isOffending e.2 = true := by rw [← hasIllegalChar_eq_isOffending]; exact hi
      rw [if_neg hi, List.filter_cons, if_neg ho]


theorem isOctalDigit_iff (c : Char) :
    isOctalDigit c = true ↔ 48 ≤ c.toNat ∧ c.toNat ≤ 55 := by
  unfold isOctalDigit
  rw [decide_eq_true_iff]
  exact Iff.rfl

theorem digitVal_of_octal (c : Char) (h : isOctalDigit c = true) :
    digitVal c = some (c.toNat - 48) ∧ c.toNat - 48 < 8 := by
  rw [isOctalDigit_iff] at h
  unfold digitVal
  have h1 : 48 ≤ c.toNat ∧ c.toNat ≤ 57 := ⟨h.1, by omega⟩
  rw [if_pos h1]
  exact ⟨rfl, by omega⟩

theorem digitVal_of_not_octal (c : Char) (h : ¬ isOctalDigit c = true) :
    digitVal c = none ∨ ∃ d : Nat, digitVal c = some d ∧ 8 ≤ d := by
  rw [isOctalDigit_iff] at h
  unfold digitVal
  by_cases h1 : 48 ≤ c.toNat ∧ c.toNat ≤ 57
  · rw [if_pos h1]
    exact Or.inr ⟨_, rfl, by omega⟩
  · rw [if_neg h1]
    by_cases h2 : 97 ≤ (c.toNat ||| 32) ∧ (c.toNat ||| 32) ≤ 122
    · rw [if_pos h2]
      exact Or.inr ⟨_, rfl, by omega⟩
    · rw [if_neg h2]
      exact Or.inl rfl

theorem octalFold_ge (cs : List Char) (n : Nat) :
    n ≤ cs.foldl (fun n c => n * 8 + (c.toNat - '0'.toNat)) n := by
  induction cs generalizing n with
  | nil => exact Nat.le_refl _
  | cons c cs ih =>
    rw [List.foldl_cons]
    exact Nat.le_trans (by omega) (ih _)

theorem parseUintLoop_octal (cs : List Char) (n : Nat) (hn : n < 4294967296) :
    ((∀ c ∈ cs, isOctalDigit c = true) ∧
        cs.foldl (fun n c => n * 8 + (c.toNat - '0'.toNat)) n < 4294967296 ∧
        parseUintLoop 8 (2 ^ 32 - 1) cs n =
          .ok (cs.foldl (fun n c => n * 8 + (c.toNat - '0'.toNat)) n)) ∨
      (¬ ((∀ c ∈ cs, isOctalDigit c = true) ∧
          cs.foldl (fun n c => n * 8 + (c.toNat - '0'.toNat)) n < 4294967296) ∧
        ∃ e : ParseErr, parseUintLoop 8 (2 ^ 32 - 1) cs n = .error e) := by
  induction cs generalizing n with
  | nil =>
    left
    exact ⟨by simp, by simpa using hn, rfl⟩
  | cons c cs ih =>
    have h0 : n * 8 + (c.toNat - '0'.toNat) = n * 8 + (c.toNat - 48) := rfl
    by_cases hc : isOctalDigit c = true
    · obtain ⟨hd, hlt⟩ := digitVal_of_octal c hc
      rw [List.foldl_cons, h0]
      by_cases hr : n * 8 + (c.toNat - 48) < 4294967296
      · have hstep : parseUintLoop 8 (2 ^ 32 - 1) (c :: cs) n =
            parseUintLoop 8 (2 ^ 32 - 1) cs (n * 8 + (c.toNat - 48)) := by
          rw [parseUintLoop, hd]
          have e1 : n * 8 % 2 ^ 64 = n * 8 := Nat.mod_eq_of_lt (by norm_num; omega)
          have e2 : (n * 8 + (c.toNat - 48)) % 2 ^ 64 = n * 8 + (c.toNat - 48) :=
            Nat.mod_eq_of_lt (by norm_num; omega)
          simp only [e1, e2]
          rw [if_neg (by omega), if_neg (by norm_num; omega), if_neg (by norm_num; omega)]
        rcases ih _ hr with ⟨ha, hb, hok⟩ | ⟨hnot, e, he⟩
        · left
          refine ⟨?_, hb, ?_⟩
          · intro x hx
            rcases List.mem_cons.mp hx with rfl | hx
            · exact hc
            · exact ha x hx
          · rw [hstep, hok]
        · right
          refine ⟨?_, e, by rw [hstep, he]⟩
          rintro ⟨ha, hb⟩
          exact hnot ⟨fun x hx => ha x (List.mem_cons_of_mem _ hx), hb⟩
      · right
        refine ⟨?_, .ErrRange, ?_⟩
        · rintro ⟨_, hb⟩
          have := octalFold_ge cs (n * 8 + (c.toNat - 48))
          omega
        · rw [parseUintLoop, hd]
          have e1 : n * 8 % 2 ^ 64 = n * 8 := Nat.mod_eq_of_lt (by norm_num; omega)
          have e2 : (n * 8 + (c.toNat - 48)) % 2 ^ 64 = n * 8 + (c.toNat - 48) :=
            Nat.mod_eq_of_lt (by norm_num; omega)
          simp only [e1, e2]
          rw [if_neg (by omega), if_neg (by norm_num; omega), if_pos (by norm_num; omega)]
    · right
      refine ⟨fun hh => hc (hh.1 c (List.mem_cons_self _ _)), ?_⟩
      rcases digitVal_of_not_octal c hc with hd | ⟨d, hd, hge⟩
      · exact ⟨.ErrSyntax, by rw [parseUintLoop, hd]⟩
      · refine ⟨.ErrSyntax, ?_⟩
        rw [parseUintLoop, hd]
        simp only []
        rw [if_pos hge]


theorem strconvParseUint_octal (s : String) :
    (s ≠ "" ∧ (∀ c ∈ s.data, isOctalDigit c = true) ∧ octalValue s.data < 2 ^ 32 ∧
        strconvParseUint s 8 32 = .ok (octalValue s.data)) ∨
      (¬ (s ≠ "" ∧ (∀ c ∈ s.data, isOctalDigit c = true) ∧ octalValue s.data < 2 ^ 32) ∧
        ∃ e : ParseErr, strconvParseUint s 8 32 = .error e) := by
  unfold strconvParseUint
  by_cases hs : s = ""
  · right
    exact ⟨fun hh => hh.1 hs, .ErrSyntax, by rw [if_pos hs]⟩
  · rw [if_neg hs]
    have h32 : (2 : Nat) ^ 32 = 4294967296 := by norm_num
    rcases parseUintLoop_octal s.data 0 (by norm_num) with ⟨ha, hb, hok⟩ | ⟨hnot, e, he⟩
    · left
      exact ⟨hs, ha, by rw [h32]; exact hb, hok⟩
    · right
      refine ⟨?_, e, he⟩
      rintro ⟨_, ha, hb⟩
      exact hnot ⟨ha, by rw [h32] at hb; exact hb⟩

theorem validateMountPermissions_cases (s : String) :
    ((s ≠ "" ∧ (∀ c ∈ s.data, isOctalDigit c = true) ∧ octalValue s.data < 2 ^ 32) ∧
        validateMountPermissions s = none) ∨
      (¬ (s ≠ "" ∧ (∀ c ∈ s.data, isOctalDigit c = true) ∧ octalValue s.data < 2 ^ 32) ∧
        validateMountPermissions s = some ("invalid mount permissions: " ++ s)) := by
  unfold validateMountPermissions
  rcases strconvParseUint_octal s with ⟨h1, h2, h3, hok⟩ | ⟨hnot, e, he⟩
  · left; exact ⟨⟨h1, h2, h3⟩, by rw [hok]⟩
  · right; exact ⟨hnot, by rw [he]⟩

theorem validateNfsParameters_ne_none_of_perm (params : GoMap String)
    (h : validateMountPermissions (params.get mountPermissionKey) ≠ none) :
    ∃ msg : String, validateNfsParameters params = some msg := by
  unfold validateNfsParameters
  simp only []
  split
  · exact ⟨_, rfl⟩
  · cases hv : validateMountPermissions (params.get mountPermissionKey) with
    | none => exact absurd hv h
    | some err => exact ⟨err, rfl⟩

/-- C19: `validateMountPermissions s` succeeds exactly when `s` is non-empty,
consists of the digits `0` to `7` only and its base-8 value is below `2^32`;
otherwise the error is `invalid mount permissions: ` followed by `s`. A
parameter map in which `mountPermission` is absent or empty is rejected by
`validateNfsParameters`. -/
theorem validateMountPermissions_spec (s : String) :
    (validateMountPermissions s = none ↔
        (s ≠ "" ∧ (∀ c ∈ s.data, isOctalDigit c = true) ∧ octalValue s.data < 2 ^ 32)) ∧
      (validateMountPermissions s ≠ none →
        validateMountPermissions s = some ("invalid mount permissions: " ++ s)) ∧
      ∀ params : GoMap String,
        (params.has "mountPermission" = false ∨ params.get "mountPermission" = "") →
        ∃ msg : String, validateNfsParameters params = some msg := by
  refine ⟨?_, ?_, ?_⟩
  · rcases validateMountPermissions_cases s with ⟨h, hv⟩ | ⟨h, hv⟩
    · exact ⟨fun _ => h, fun _ => hv⟩
    · exact ⟨fun hn => (by rw [hn] at hv; cases hv), fun hh => absurd hh h⟩
  · intro hne
    rcases validateMountPermissions_cases s with ⟨h, hv⟩ | ⟨h, hv⟩
    · exact absurd hv hne
    · exact hv
  · intro params hp
    have hget : params.get mountPermissionKey = "" := by
      rcases hp with hp | hp
      · have hf : params.find mountPermissionKey = none := by
          unfold GoMap.has at hp
          cases hfind : params.find "mountPermission" with
          | none => exact hfind
          | some v => rw [hfind] at hp; cases hp
        unfold GoMap.get
        rw [hf]
        rfl
      · exact hp
    apply validateNfsParameters_ne_none_of_perm
    rw [hget]
    decide

theorem validateMountPermissions_spec_witness :
    validateMountPermissions "0755" = none ∧
      validateMountPermissions "0758" = some "invalid mount permissions: 0758" ∧
      validateMountPermissions "+755" = some "invalid mount permissions: +755" ∧
      validateMountPermissions "0o755" = some "invalid mount permissions: 0o755" ∧
      validateMountPermissions "7_55" = some "invalid mount permissions: 7_55" ∧
      validateMountPermissions "40000000000" = some "invalid mount permissions: 40000000000" ∧
      ∃ msg : String, validateNfsParameters
        [("server", "fakeServer"), ("basedir", "fakeBaseDir")] = some msg :=
  ⟨(validateMountPermissions_spec "0755").1.2 (by decide),
    (validateMountPermissions_spec "0758").2.1 (by decide),
    (validateMountPermissions_spec "+755").2.1 (by decide),
    (validateMountPermissions_spec "0o755").2.1 (by decide),
    (validateMountPermissions_spec "7_55").2.1 (by decide),
    (validateMountPermissions_spec "40000000000").2.1 (by decide),
    (validateMountPermissions_spec "").2.2
      [("server", "fakeServer"), ("basedir", "fakeBaseDir")] (Or.inl (by decide))⟩

/-- C20: what the code does on the parameter map of the repository's test
`validate rightParameters`, for which the test expects no error: the map has no
`mountPermission`, and `validateNfsParameters` returns an error. -/
theorem validateNfsParameters_rightParameters :
    validateNfsParameters
        [("server", "fakeServer"), ("basedir", "fakeBaseDir"), ("subdir", "fakeSubDir")] =
      some "invalid mount permissions: " := by
  decide


/-- C16: a parameter map in which some value, under whatever key and next to
whatever other entries, contains one of the characters ``& | ; $ ' ` ( )`` is
rejected by `validateNfsParameters`. -/
theorem validateNfsParameters_rejects_offending (params : GoMap String)
    (h : ∃ e ∈ params, ∃ c ∈ "&|;$'`()".data, c ∈ e.2.data) :
    ∃ msg : String, validateNfsParameters params = some msg := by
  obtain ⟨e, he, c, hc, hce⟩ := h
  have hne := validateNfsParameters_illegal params
    ⟨e, he, (hasIllegalChar_iff e.2).mpr ⟨c, hc, hce⟩⟩
  cases hv : validateNfsParameters params with
  | none => exact absurd hv hne
  | some msg => exact ⟨msg, rfl⟩

theorem validateNfsParameters_rejects_offending_witness :
    ∃ msg : String, validateNfsParameters [("server", "&")] = some msg :=
  validateNfsParameters_rejects_offending [("server", "&")]
    ⟨("server", "&"), by decide, '&', by decide, by decide⟩

theorem illegalFragments_join_ne (params : GoMap String)
    (h : ∃ e ∈ params, isOffending e.2 = true) : String.join (illegalFragments params) ≠ "" := by
  obtain ⟨e, he, ho⟩ := h
  have h2 := (illegalMsg_length params "").2
    ⟨e, he, by rw [hasIllegalChar_eq_isOffending]; exact ho⟩
  rw [illegalMsg_eq] at h2
  intro hj
  rw [hj] at h2
  exact absurd h2 (by decide)

theorem fragment_in_join (params : GoMap String) (e : String × String) (he : e ∈ params)
    (ho : isOffending e.2 = true) :
    ∃ pre post : String, String.join (illegalFragments params) =
      pre ++ ("Args " ++ e.2 ++ " has illegal access.") ++ post := by
  induction params with
  | nil => cases he
  | cons x xs ih =>
    rcases List.mem_cons.mp he with rfl | hx
    · refine ⟨"", String.join (illegalFragments xs), ?_⟩
      unfold illegalFragments
      rw [List.filter_cons, if_pos ho, List.map_cons, string_join_cons]
      simp
    · obtain ⟨pre, post, hp⟩ := ih hx
      by_cases hxo : isOffending x.2 = true
      · refine ⟨"Args " ++ x.2 ++ " has illegal access." ++ pre, post, ?_⟩
        have : illegalFragments (x :: xs) =
            ("Args " ++ x.2 ++ " has illegal access.") :: illegalFragments xs := by
          unfold illegalFragments
          rw [List.filter_cons, if_pos hxo, List.map_cons]
        rw [this, string_join_cons, hp]
        simp only [String.append_assoc]
      · refine ⟨pre, post, ?_⟩
        have : illegalFragments (x :: xs) = illegalFragments xs := by
          unfold illegalFragments
          rw [List.filter_cons, if_neg hxo]
        rw [this, hp]

/-- C17: for a parameter map with an offending value the error of
`validateNfsParameters` is the concatenation, in the order the entries are
visited, of one fragment `Args <value> has illegal access.` per entry with an
offending value; so there are as many fragments as offending entries and every
offending value occurs in the message. -/
theorem validateNfsParameters_message (params : GoMap String)
    (h : ∃ e ∈ params, isOffending e.2 = true) :
    validateNfsParameters params = some (String.join (illegalFragments params)) ∧
      (illegalFragments params).length = params.countP (fun e => isOffending e.2) ∧
      ∀ e ∈ params, isOffending e.2 = true →
        ∃ pre post : String, String.join (illegalFragments params) =
          pre ++ ("Args " ++ e.2 ++ " has illegal access.") ++ post := by
  refine ⟨?_, ?_, fun e he ho => fragment_in_join params e he ho⟩
  · have hne := illegalFragments_join_ne params h
    unfold validateNfsParameters
    simp only [illegalMsg_eq, String.empty_append]
    rw [if_pos hne]
  · unfold illegalFragments
    rw [List.length_map, List.countP_eq_length_filter]

theorem validateNfsParameters_message_witness :
    validateNfsParameters [("unknown", "1&1(1)1"), ("server", "fakeServer"), ("basedir", "a;b")] =
        some "Args 1&1(1)1 has illegal access.Args a;b has illegal access." ∧
      (illegalFragments
        [("unknown", "1&1(1)1"), ("server", "fakeServer"), ("basedir", "a;b")]).length = 2 :=
  ⟨(validateNfsParameters_message
      [("unknown", "1&1(1)1"), ("server", "fakeServer"), ("basedir", "a;b")]
      ⟨("unknown", "1&1(1)1"), by decide, by decide⟩).1,
    by decide⟩


theorem illegalFragments_clean (params : GoMap String)
    (hclean : ∀ e ∈ params, isOffending e.2 = false) : illegalFragments params = [] := by
  unfold illegalFragments
  rw [List.map_eq_nil_iff, List.filter_eq_nil_iff]
  intro e he
  rw [hclean e he]
  decide

theorem validateNfsParameters_clean (params : GoMap String)
    (hclean : ∀ e ∈ params, isOffending e.2 = false)
    (hperm : validateMountPermissions (params.get mountPermissionKey) = none) :
    validateNfsParameters params =
      if params.has serverKey = false then some "nfs server is required"
      else if params.has basedirKey = false then some "nfs basedir is required"
      else none := by
  unfold validateNfsParameters
  simp only [illegalMsg_eq, illegalFragments_clean params hclean, hperm]
  have hj : ("" : String) ++ String.join [] = "" := by decide
  rw [hj]
  simp only [ne_eq, not_true_eq_false, if_false]
  cases params.has serverKey <;> cases params.has basedirKey <;> rfl

theorem GoMap.mem_set {V : Type} (m : GoMap V) (k : String) (v : V) (e : String × V)
    (he : e ∈ m.set k v) : e ∈ m ∨ e = (k, v) := by
  unfold GoMap.set at he
  split at he
  · obtain ⟨x, hx, hxe⟩ := List.mem_map.mp he
    by_cases hk : x.1 = k
    · rw [if_pos hk] at hxe
      exact Or.inr hxe.symm
    · rw [if_neg hk] at hxe
      exact Or.inl (hxe ▸ hx)
  · rcases List.mem_append.mp he with h | h
    · exact Or.inl h
    · exact Or.inr (by simpa using h)

theorem GoMap.mem_delete {V : Type} (m : GoMap V) (k : String) (e : String × V)
    (he : e ∈ m.delete k) : e ∈ m := by
  unfold GoMap.delete at he
  exact (List.mem_filter.mp he).1

theorem GoMap.get_delete_ne (m : GoMap String) (k k2 : String) (h : k2 ≠ k) :
    (m.delete k).get k2 = m.get k2 := by
  simp [GoMap.get, GoMap.find_delete_ne _ _ _ h]

/-- C18: for a parameter map whose values hold no forbidden character and
whose `mountPermission` is a string of base-8 digits with a value below `2^32`,
`validateNfsParameters` returns no error exactly when the keys `server` and
`basedir` are both present; without `server` the error is
`nfs server is required`, with `server` and without `basedir` it is
`nfs basedir is required`; and removing `subdir` or setting it to a value
without forbidden character leaves the result as it is. -/
theorem validateNfsParameters_required_keys (params : GoMap String)
    (hclean : ∀ e ∈ params, isOffending e.2 = false)
    (hperm : params.get "mountPermission" ≠ "" ∧
      (∀ c ∈ (params.get "mountPermission").data, isOctalDigit c = true) ∧
      octalValue (params.get "mountPermission").data < 2 ^ 32) :
    (validateNfsParameters params = none ↔
        (params.has "server" = true ∧ params.has "basedir" = true)) ∧
      (params.has "server" = false →
        validateNfsParameters params = some "nfs server is required") ∧
      (params.has "server" = true → params.has "basedir" = false →
        validateNfsParameters params = some "nfs basedir is required") ∧
      validateNfsParameters (params.delete "subdir") = validateNfsParameters params ∧
      ∀ v : String, isOffending v = false →
        validateNfsParameters (params.set "subdir" v) = validateNfsParameters params := by
  have hp : validateMountPermissions (params.get mountPermissionKey) = none := by
    rcases validateMountPermissions_cases (params.get mountPermissionKey) with ⟨_, hv⟩ | ⟨hn, _⟩
    · exact hv
    · exact absurd hperm hn
  have hform := validateNfsParameters_clean params hclean hp
  have hs : serverKey = "server" := rfl
  have hb : basedirKey = "basedir" := rfl
  rw [hs, hb] at hform
  refine ⟨?_, ?_, ?_, ?_, ?_⟩
  · rw [hform]
    cases params.has "server" <;> cases params.has "basedir" <;> simp
  · intro h1
    rw [hform, h1]
    rfl
  · intro h1 h2
    rw [hform, h1, h2]
    rfl
  · have hclean2 : ∀ e ∈ params.delete "subdir", isOffending e.2 = false :=
      fun e he => hclean e (GoMap.mem_delete _ _ _ he)
    have hp2 : validateMountPermissions ((params.delete "subdir").get mountPermissionKey) = none := by
      rw [GoMap.get_delete_ne _ _ _ (by decide)]
      exact hp
    rw [validateNfsParameters_clean _ hclean2 hp2, validateNfsParameters_clean _ hclean hp,
      GoMap.has_delete_ne _ _ serverKey (by decide), GoMap.has_delete_ne _ _ basedirKey (by decide)]
  · intro v hv
    have hclean2 : ∀ e ∈ params.set "subdir" v, isOffending e.2 = false := by
      intro e he
      rcases GoMap.mem_set _ _ _ _ he with h | h
      · exact hclean e h
      · rw [h]; exact hv
    have hp2 : validateMountPermissions ((params.set "subdir" v).get mountPermissionKey) = none := by
      rw [GoMap.get_set_ne _ _ _ _ (by decide)]
      exact hp
    rw [validateNfsParameters_clean _ hclean2 hp2, validateNfsParameters_clean _ hclean hp,
      GoMap.has_set_ne _ _ serverKey _ (by decide), GoMap.has_set_ne _ _ basedirKey _ (by decide)]

theorem validateNfsParameters_required_keys_witness :
    validateNfsParameters
        [("server", "fakeServer"), ("basedir", "fakeBaseDir"), ("mountPermission", "0755")] = none ∧
      validateNfsParameters [("basedir", "fakeBaseDir"), ("mountPermission", "0755")] =
        some "nfs server is required" ∧
      validateNfsParameters [("server", "fakeServer"), ("mountPermission", "0755")] =
        some "nfs basedir is required" ∧
      validateNfsParameters
          (GoMap.set [("server", "fakeServer"), ("basedir", "fakeBaseDir"),
            ("mountPermission", "0755")] "subdir" "fakeSubDir") =
        validateNfsParameters
          [("server", "fakeServer"), ("basedir", "fakeBaseDir"), ("mountPermission", "0755")] :=
  ⟨(validateNfsParameters_required_keys
      [("server", "fakeServer"), ("basedir", "fakeBaseDir"), ("mountPermission", "0755")]
      (by decide) (by decide)).1.2 (by decide),
    (validateNfsParameters_required_keys
      [("basedir", "fakeBaseDir"), ("mountPermission", "0755")]
      (by decide) (by decide)).2.1 (by decide),
    (validateNfsParameters_required_keys
      [("server", "fakeServer"), ("mountPermission", "0755")]
      (by decide) (by decide)).2.2.1 (by decide) (by decide),
    (validateNfsParameters_required_keys
      [("server", "fakeServer"), ("basedir", "fakeBaseDir"), ("mountPermission", "0755")]
      (by decide) (by decide)).2.2.2.2 "fakeSubDir" (by decide)⟩

/-! ## CreateVolume with an empty required value -/

theorem find_eq_none_of_not_mem_keys {V : Type} (m : GoMap V) (k : String)
    (h : k ∉ m.map Prod.fst) : m.find k = none := by
  unfold GoMap.find
  induction m with
  | nil => rfl
  | cons e es ih =>
    obtain ⟨a, b⟩ := e
    have h1 : ¬ k = a := fun e => h (by simp [e])
    have h2 : k ∉ es.map Prod.fst := fun e => h (by simp [e])
    rw [lookup_cons_eq, if_neg h1, ih h2]

theorem mem_keys_of_find {V : Type} (m : GoMap V) (k : String) (v : V)
    (h : m.find k = some v) : k ∈ m.map Prod.fst := by
  by_contra hn
  rw [find_eq_none_of_not_mem_keys m k hn] at h
  cases h

theorem keys_set {V : Type} (m : GoMap V) (k : String) (v : V)
    (h : (m.map Prod.fst).Nodup) : ((m.set k v).map Prod.fst).Nodup := by
  unfold GoMap.set
  split
  · have : (m.map (fun e => if e.1 = k then (k, v) else e)).map Prod.fst = m.map Prod.fst := by
      rw [List.map_map]
      apply List.map_congr_left
      intro e _
      by_cases he : e.1 = k
      · simp [he]
      · simp [he]
    rw [this]
    exact h
  · rename_i hh
    have hk : k ∉ m.map Prod.fst := by
      intro hmem
      apply hh
      unfold GoMap.has
      obtain ⟨e, he, hek⟩ := List.mem_map.mp hmem
      cases hf : m.find k with
      | some x => rfl
      | none =>
        exfalso
        clear hh h
        unfold GoMap.find at hf
        induction m with
        | nil => cases he
        | cons x xs ih =>
          obtain ⟨a, b⟩ := x
          rw [lookup_cons_eq] at hf
          by_cases hka : k = a
          · rw [if_pos hka] at hf; cases hf
          · rw [if_neg hka] at hf
            rcases List.mem_cons.mp he with rfl | he2
            · exact hka hek.symm
            · exact ih (List.mem_map.mpr ⟨e, he2, hek⟩) he2 hf
    rw [List.map_append, List.map_cons, List.map_nil]
    exact List.Nodup.append h (List.nodup_singleton k) (by simpa using hk)

theorem contextFold_find_other (h : Host) (p init : GoMap String) (k : String)
    (hk : k ∉ p.map Prod.fst) :
    (p.foldl (fun (vc : GoMap String) (e : String × String) =>
      if stringsToLower h e.1 ≠ subdirKey then vc.set e.1 e.2 else vc) init).find k =
      init.find k := by
  induction p generalizing init with
  | nil => rfl
  | cons e es ih =>
    have h1 : ¬ k = e.1 := fun e1 => hk (by simp [e1])
    have h2 : k ∉ es.map Prod.fst := fun e1 => hk (by simp [e1])
    rw [List.foldl_cons, ih _ h2]
    split
    · exact GoMap.find_set_ne _ _ _ _ h1
    · rfl

theorem contextFold_find (h : Host) (p init : GoMap String) (k v : String)
    (hnd : (p.map Prod.fst).Nodup) (hf : p.find k = some v)
    (hlow : stringsToLower h k ≠ subdirKey) :
    (p.foldl (fun (vc : GoMap String) (e : String × String) =>
      if stringsToLower h e.1 ≠ subdirKey then vc.set e.1 e.2 else vc) init).find k =
      some v := by
  induction p generalizing init with
  | nil => cases hf
  | cons e es ih =>
    obtain ⟨a, b⟩ := e
    rw [List.map_cons, List.nodup_cons] at hnd
    unfold GoMap.find at hf
    rw [lookup_cons_eq] at hf
    rw [List.foldl_cons]
    by_cases hka : k = a
    · subst hka
      rw [if_pos rfl] at hf
      cases hf
      rw [contextFold_find_other h es _ k hnd.1]
      simp only [hlow, ne_eq, not_false_eq_true, if_true]
      exact GoMap.find_set_self _ _ _
    · rw [if_neg hka] at hf
      exact ih _ hnd.2 hf


theorem preMount_empty_required (h : Host) (p : GoMap String) (volId tpp : String)
    (tr : List Call) (mpv sv bv : String) (perm : Nat)
    (hnd : (p.map Prod.fst).Nodup)
    (hmp : p.find mountPermissionKey = some mpv)
    (hparse : strconvParseUint mpv 8 32 = .ok perm)
    (hsf : p.find serverKey = some sv) (hbf : p.find basedirKey = some bv)
    (hempty : sv = "" ∨ bv = "") :
    ∃ msg : String, preMount (NewNodeServer h) h p volId tpp tr =
      (some ⟨.InvalidArgument, msg⟩, tr) := by
  have e1 : stringsToLower h mountPermissionKey = "mountpermission" := rfl
  have e2 : stringsToLower h serverKey = "server" := rfl
  have e3 : stringsToLower h basedirKey = "basedir" := rfl
  have hl1 : stringsToLower h mountPermissionKey ≠ subdirKey := by rw [e1]; decide
  have hl2 : stringsToLower h serverKey ≠ subdirKey := by rw [e2]; decide
  have hl3 : stringsToLower h basedirKey ≠ subdirKey := by rw [e3]; decide
  unfold preMount NewNodeServer NodePublishVolume
  simp only [GoMap.get, contextFold_find h p _ _ _ hnd hmp hl1,
    contextFold_find h p _ _ _ hnd hsf hl2, contextFold_find h p _ _ _ hnd hbf hl3,
    Option.getD_some, hparse]
  by_cases hv : volId = ""
  · exact ⟨_, by rw [if_pos hv]⟩
  · rw [if_neg hv]
    by_cases ht : tpp = ""
    · exact ⟨_, by rw [if_pos ht]⟩
    · rw [if_neg ht]
      by_cases hs : sv = ""
      · exact ⟨_, by rw [if_pos hs]⟩
      · rw [if_neg hs]
        have hb : bv = "" := hempty.resolve_left hs
        exact ⟨_, by rw [if_pos hb]⟩

theorem find_of_has (m : GoMap String) (k : String) (h : m.has k = true) :
    m.find k = some (m.get k) := by
  unfold GoMap.has at h
  unfold GoMap.get
  cases hf : m.find k with
  | none => rw [hf] at h; cases h
  | some v => rfl

theorem withDefaultSubdir_keys (p : GoMap String) (name : String)
    (h : (p.map Prod.fst).Nodup) : ((withDefaultSubdir p name).map Prod.fst).Nodup := by
  unfold withDefaultSubdir
  split
  · exact keys_set _ _ _ h
  · exact h

/-- C13 as stated fails: a create request with an empty `server` value passes
validation, is answered with `Internal`, and its name is left in the
processing set. -/
theorem createVolume_empty_server_counterexample :
    CreateVolume (NewNodeServer okHost) okHost
        ⟨"vol1", [("server", ""), ("basedir", "fakeBaseDir"), ("mountPermission", "0755")]⟩
        ⟨NewIdempotency, []⟩ =
      (.error ⟨.Internal, "rpc error: code = InvalidArgument desc = Server is required"⟩,
        ⟨⟨[("vol1", true)]⟩, []⟩) := by
  decide

/-- C13 amended: a create request with a name that is not being processed,
clean values, a valid `mountPermission` and the keys `server` and `basedir`,
one of them with the empty string as value, passes validation; with the
driver's node server the premount is refused before any host call and
`CreateVolume` is answered with `Internal`. -/
theorem createVolume_empty_required (h : Host) (req : CreateVolumeRequest) (st : SysState)
    (hname : req.Name ≠ "")
    (hclean : ∀ e ∈ req.Parameters, isOffending e.2 = false)
    (hperm : req.Parameters.get "mountPermission" ≠ "" ∧
      (∀ c ∈ (req.Parameters.get "mountPermission").data, isOctalDigit c = true) ∧
      octalValue (req.Parameters.get "mountPermission").data < 2 ^ 32)
    (hkeys : req.Parameters.has "server" = true ∧ req.Parameters.has "basedir" = true)
    (hempty : req.Parameters.get "server" = "" ∨ req.Parameters.get "basedir" = "")
    (hnd : (req.Parameters.map Prod.fst).Nodup)
    (hproc : st.idempotency.IsProcessing req.Name = false) :
    validateVolumeRequest req = none ∧
      ∃ msg : String,
        (CreateVolume (NewNodeServer h) h req st).1 = .error ⟨.Internal, msg⟩ ∧
          (CreateVolume (NewNodeServer h) h req st).2.trace = st.trace := by
  have hp : validateMountPermissions (req.Parameters.get mountPermissionKey) = none := by
    rcases validateMountPermissions_cases (req.Parameters.get mountPermissionKey) with
      ⟨_, hv⟩ | ⟨hn, _⟩
    · exact hv
    · exact absurd hperm hn
  have hval : validateVolumeRequest req = none := by
    unfold validateVolumeRequest
    rw [if_neg hname, validateNfsParameters_clean _ hclean hp]
    have h1 : req.Parameters.has serverKey = true := hkeys.1
    have h2 : req.Parameters.has basedirKey = true := hkeys.2
    rw [h1, h2]
    rfl
  refine ⟨hval, ?_⟩
  obtain ⟨perm, hparse⟩ := validate_parse_ok req hval
  have hmpne : req.Parameters.has mountPermissionKey = true := by
    unfold GoMap.has
    cases hf : req.Parameters.find mountPermissionKey with
    | some v => rfl
    | none =>
      exfalso
      apply hperm.1
      show GoMap.get req.Parameters mountPermissionKey = ""
      unfold GoMap.get
      rw [hf]
      rfl
  obtain ⟨msg, hpre⟩ := preMount_empty_required h (withDefaultSubdir req.Parameters req.Name)
    (getVolIdFromParams (withDefaultSubdir req.Parameters req.Name))
    (getTargetParentPath (specSubdir req)) st.trace
    (req.Parameters.get mountPermissionKey) (req.Parameters.get serverKey)
    (req.Parameters.get basedirKey) perm
    (withDefaultSubdir_keys _ _ hnd)
    (by rw [withDefaultSubdir_find_ne _ _ _ (by decide)]; exact find_of_has _ _ hmpne)
    hparse
    (by rw [withDefaultSubdir_find_ne _ _ _ (by decide)]; exact find_of_has _ _ hkeys.1)
    (by rw [withDefaultSubdir_find_ne _ _ _ (by decide)]; exact find_of_has _ _ hkeys.2)
    hempty
  rw [createVolume_premount_failed (NewNodeServer h) h req st _ st.trace hval hproc hpre]
  exact ⟨_, rfl, rfl⟩

theorem createVolume_empty_required_witness :
    validateVolumeRequest
        ⟨"vol1", [("server", "fakeServer"), ("basedir", ""), ("mountPermission", "0755")]⟩ = none ∧
      ∃ msg : String,
        (CreateVolume (NewNodeServer okHost) okHost
            ⟨"vol1", [("server", "fakeServer"), ("basedir", ""), ("mountPermission", "0755")]⟩
            ⟨NewIdempotency, []⟩).1 = .error ⟨.Internal, msg⟩ ∧
          (CreateVolume (NewNodeServer okHost) okHost
            ⟨"vol1", [("server", "fakeServer"), ("basedir", ""), ("mountPermission", "0755")]⟩
            ⟨NewIdempotency, []⟩).2.trace = [] :=
  createVolume_empty_required okHost
    ⟨"vol1", [("server", "fakeServer"), ("basedir", ""), ("mountPermission", "0755")]⟩
    ⟨NewIdempotency, []⟩ (by decide) (by decide) (by decide) (by decide) (by decide)
    (by decide) (by decide)

/-! ## The admission step relation -/

/-- Taking one call out of a list of calls with pairwise different keys leaves
calls whose keys differ from each other and from the key taken out. -/
theorem eraseIdx_keys (l : List Admitted) (i : Nat) (a : Admitted)
    (hget : l.get? i = some a) (hnd : (l.map Admitted.key).Nodup) :
    ((l.eraseIdx i).map Admitted.key).Nodup ∧
      ∀ b ∈ l.eraseIdx i, b ∈ l ∧ b.key ≠ a.key := by
  induction l generalizing i with
  | nil => cases hget
  | cons x xs ih =>
    rw [List.map_cons, List.nodup_cons] at hnd
    cases i with
    | zero =>
      rw [List.get?_cons_zero] at hget
      cases hget
      rw [List.eraseIdx_cons_zero]
      refine ⟨hnd.2, fun b hb => ⟨List.mem_cons_of_mem _ hb, ?_⟩⟩
      intro hk
      exact hnd.1 (List.mem_map.mpr ⟨b, hb, hk⟩)
    | succ j =>
      rw [List.get?_cons_succ] at hget
      obtain ⟨h1, h2⟩ := ih j hget hnd.2
      rw [List.eraseIdx_cons_succ]
      have ha : a ∈ xs := List.get?_mem hget
      refine ⟨?_, ?_⟩
      · rw [List.map_cons, List.nodup_cons]
        refine ⟨?_, h1⟩
        intro hx
        obtain ⟨b, hb, hbk⟩ := List.mem_map.mp hx
        exact hnd.1 (List.mem_map.mpr ⟨b, (h2 b hb).1, hbk⟩)
      · intro b hb
        rcases List.mem_cons.mp hb with rfl | hb
        · refine ⟨List.mem_cons_self _ _, ?_⟩
          intro hk
          exact hnd.1 (List.mem_map.mpr ⟨a, ha, hk.symm⟩)
        · exact ⟨List.mem_cons_of_mem _ (h2 b hb).1, (h2 b hb).2⟩

theorem admit_keys (idem : Idempotency) (l : List Admitted) (k : String) (p : Option String)
    (hnd : (l.map Admitted.key).Nodup)
    (hin : ∀ a ∈ l, idem.IsProcessing a.key = true)
    (hk : idem.IsProcessing k = false) :
    ((l ++ [(⟨k, p⟩ : Admitted)]).map Admitted.key).Nodup ∧
      ∀ a ∈ l ++ [(⟨k, p⟩ : Admitted)], (idem.AddProcessing k).IsProcessing a.key = true := by
  have hfresh : ∀ a ∈ l, a.key ≠ k := by
    intro a ha hak
    have := hin a ha
    rw [hak, hk] at this
    cases this
  refine ⟨?_, ?_⟩
  · rw [List.map_append, List.map_cons, List.map_nil]
    refine List.Nodup.append hnd (List.nodup_singleton k) ?_
    intro x hx hx2
    obtain ⟨a, ha, hak⟩ := List.mem_map.mp hx
    rw [List.mem_singleton] at hx2
    exact hfresh a ha (hak.trans hx2)
  · intro a ha
    rcases List.mem_append.mp ha with h | h
    · rw [isProcessing_add_ne _ _ _ (hfresh a h)]
      exact hin a h
    · rw [List.mem_singleton] at h
      rw [h]
      exact isProcessing_add _ _

theorem ctlStep_inv (s s2 : CtlState) (e : CtlEvent)
    (hnd : (s.admitted.map Admitted.key).Nodup)
    (hin : ∀ a ∈ s.admitted, s.idempotency.IsProcessing a.key = true)
    (hstep : ctlStep s e = some s2) :
    (s2.admitted.map Admitted.key).Nodup ∧
      ∀ a ∈ s2.admitted, s2.idempotency.IsProcessing a.key = true := by
  cases e with
  | admitCreate req =>
    simp only [ctlStep] at hstep
    by_cases hv : validateVolumeRequest req ≠ none
    · rw [if_pos hv] at hstep; cases hstep
    · rw [if_neg hv] at hstep
      by_cases hp : s.idempotency.IsProcessing req.Name = true
      · rw [if_pos hp] at hstep; cases hstep
      · rw [if_neg hp] at hstep
        cases hstep
        exact admit_keys _ _ _ _ hnd hin (by simpa using hp)
  | admitDelete req =>
    simp only [ctlStep] at hstep
    by_cases hp : s.idempotency.IsProcessing req.VolumeId = true
    · rw [if_pos hp] at hstep; cases hstep
    · rw [if_neg hp] at hstep
      cases hstep
      exact admit_keys _ _ _ _ hnd hin (by simpa using hp)
  | release position =>
    simp only [ctlStep] at hstep
    cases hg : s.admitted.get? position with
    | none => rw [hg] at hstep; cases hstep
    | some a =>
      rw [hg] at hstep
      cases hstep
      obtain ⟨h1, h2⟩ := eraseIdx_keys _ _ _ hg hnd
      refine ⟨h1, fun b hb => ?_⟩
      show (s.idempotency.RemoveProcessing a.key).IsProcessing b.key = true
      rw [isProcessing_remove_ne _ _ _ (h2 b hb).2]
      exact hin b (h2 b hb).1

theorem ctlRun_inv (events : List CtlEvent) (s s2 : CtlState)
    (hnd : (s.admitted.map Admitted.key).Nodup)
    (hin : ∀ a ∈ s.admitted, s.idempotency.IsProcessing a.key = true)
    (hrun : ctlRun s events = some s2) :
    (s2.admitted.map Admitted.key).Nodup ∧
      ∀ a ∈ s2.admitted, s2.idempotency.IsProcessing a.key = true := by
  induction events generalizing s with
  | nil =>
    cases hrun
    exact ⟨hnd, hin⟩
  | cons e es ih =>
    unfold ctlRun at hrun
    cases hs : ctlStep s e with
    | none => rw [hs] at hrun; cases hrun
    | some s1 =>
      rw [hs] at hrun
      obtain ⟨h1, h2⟩ := ctlStep_inv s s1 e hnd hin hs
      exact ih s1 h1 h2 hrun

/-- C15 as stated fails: two create requests with different names and the
same `subdir` are both admitted and work on the same target parent path, and
so are a create request and a delete request for the volume it names. -/
theorem admitted_same_path_counterexample :
    (ctlRun ctlInit
        [.admitCreate ⟨"vol1", [("server", "faleServer"), ("basedir", "fakeBaseDir"),
            ("subdir", "fakeSubDir"), ("mountPermission", "0755")]⟩,
          .admitCreate ⟨"vol2", [("server", "faleServer"), ("basedir", "fakeBaseDir"),
            ("subdir", "fakeSubDir"), ("mountPermission", "0755")]⟩,
          .admitDelete ⟨"faleServer#fakeBaseDir#fakeSubDir"⟩]).map CtlState.admitted =
      some [⟨"vol1", some "/tmp/fakeSubDir"⟩, ⟨"vol2", some "/tmp/fakeSubDir"⟩,
        ⟨"faleServer#fakeBaseDir#fakeSubDir", some "/tmp/fakeSubDir"⟩] := by
  decide

/-- C15 amended: in every state reached from a new controller by admission and
release steps, the admitted and not yet released calls hold pairwise different
guard keys (the name for `CreateVolume`, the volume id for `DeleteVolume`), and
each of these keys is in the processing set. -/
theorem admitted_keys_distinct (events : List CtlEvent) (s : CtlState)
    (hrun : ctlRun ctlInit events = some s) :
    (s.admitted.map Admitted.key).Nodup ∧
      ∀ a ∈ s.admitted, s.idempotency.IsProcessing a.key = true :=
  ctlRun_inv events ctlInit s List.nodup_nil (fun _ ha => by cases ha) hrun

theorem admitted_keys_distinct_witness :
    (List.map Admitted.key
      [⟨"faleServer#fakeBaseDir#fakeSubDir", some "/tmp/fakeSubDir"⟩,
        ⟨"vol1", some "/tmp/vol1"⟩]).Nodup :=
  (admitted_keys_distinct
    [.admitCreate ⟨"vol1", [("server", "faleServer"), ("basedir", "fakeBaseDir"),
        ("subdir", "fakeSubDir"), ("mountPermission", "0755")]⟩,
      .admitDelete ⟨"faleServer#fakeBaseDir#fakeSubDir"⟩,
      .release 0,
      .admitCreate ⟨"vol1", [("server", "faleServer"), ("basedir", "fakeBaseDir"),
        ("mountPermission", "0755")]⟩]
    ⟨⟨[("faleServer#fakeBaseDir#fakeSubDir", true), ("vol1", true)]⟩,
      [⟨"faleServer#fakeBaseDir#fakeSubDir", some "/tmp/fakeSubDir"⟩,
        ⟨"vol1", some "/tmp/vol1"⟩]⟩
    (by decide)).1

/-! ## The node server's checks, capabilities and the guard frame -/

/-- C22: `NodePublishVolume` answers `InvalidArgument` without any host call
when the volume id is empty, the target path is empty or the volume capability
is absent; `NodeUnpublishVolume` answers `InvalidArgument` without any host
call when the volume id or the target path is empty. -/
theorem node_requests_missing_fields (h : Host) (trace : List Call) :
    (∀ req : NodePublishVolumeRequest,
        (req.VolumeId = "" ∨ req.TargetPath = "" ∨ req.VolumeCapability = none) →
        ∃ msg : String, NodePublishVolume h req trace = (.error ⟨.InvalidArgument, msg⟩, trace)) ∧
      ∀ req : NodeUnpublishVolumeRequest,
        (req.VolumeId = "" ∨ req.TargetPath = "") →
        ∃ msg : String,
          NodeUnpublishVolume h req trace = (.error ⟨.InvalidArgument, msg⟩, trace) := by
  constructor
  · intro req hreq
    unfold NodePublishVolume
    by_cases hv : req.VolumeId = ""
    · exact ⟨_, (by simp only [hv, if_true]; rfl)⟩
    · by_cases ht : req.TargetPath = ""
      · exact ⟨_, (by simp only [hv, ht, if_true, if_false]; rfl)⟩
      · have hc : req.VolumeCapability = none := by
          rcases hreq with h1 | h1 | h1
          · exact absurd h1 hv
          · exact absurd h1 ht
          · exact h1
        exact ⟨_, (by simp only [hv, ht, hc, if_false]; rfl)⟩
  · intro req hreq
    unfold NodeUnpublishVolume
    by_cases hv : req.VolumeId = ""
    · exact ⟨_, (by simp only [hv, if_true]; rfl)⟩
    · have ht : req.TargetPath = "" := hreq.resolve_left hv
      exact ⟨_, (by simp only [hv, ht, if_true, if_false]; rfl)⟩

theorem node_requests_missing_fields_witness :
    NodePublishVolume okHost ⟨"", "", none, false, []⟩ [] =
        (.error ⟨.InvalidArgument, "Volume ID is required"⟩, []) ∧
      NodePublishVolume okHost ⟨"testVolId", "", none, false, []⟩ [] =
        (.error ⟨.InvalidArgument, "Target path is required"⟩, []) ∧
      NodePublishVolume okHost ⟨"testVolId", "/tmp/testTargetPath", none, false, []⟩ [] =
        (.error ⟨.InvalidArgument, "Volume capability is required"⟩, []) ∧
      (∃ msg : String, NodeUnpublishVolume okHost ⟨"", ""⟩ [] =
        (.error ⟨.InvalidArgument, msg⟩, [])) ∧
      ∃ msg : String, NodeUnpublishVolume okHost ⟨"testVolId", ""⟩ [] =
        (.error ⟨.InvalidArgument, msg⟩, []) :=
  ⟨by decide, by decide, by decide,
    (node_requests_missing_fields okHost []).2 ⟨"", ""⟩ (Or.inl rfl),
    (node_requests_missing_fields okHost []).2 ⟨"testVolId", ""⟩ (Or.inr rfl)⟩

/-- C21: what the code does on a publish request with the block access type
and an otherwise complete volume context. The capability check of the
controller, `tryValidateVolumeCapabilities`, refuses the capability with
`block volume is not supported`; `NodePublishVolume` does not turn the request
away: the share is mounted and the call succeeds. -/
theorem nodePublish_block_not_rejected :
    tryValidateVolumeCapabilities [⟨.block⟩] = some "block volume is not supported" ∧
      NodePublishVolume okHost
        ⟨"testVolId", "/tmp/testTargetPath", some ⟨.block⟩, false,
          [("mountPermission", "0777"), ("server", "testServer"), ("basedir", "testBasePath")]⟩
        [] =
      (.ok (),
        [.isLikelyNotMountPoint "/tmp/testTargetPath",
          .mount "testServer:/testBasePath" "/tmp/testTargetPath" "nfs" [],
          .lstat "/tmp/testTargetPath", .chmod "/tmp/testTargetPath" 511]) := by
  decide

/-- The access type is never read by `NodePublishVolume`: on every host and
request, a capability with the block access type gives the result and the host
calls of a mount capability without flags. -/
theorem nodePublish_ignores_block (h : Host) (req : NodePublishVolumeRequest)
    (trace : List Call) :
    NodePublishVolume h { req with VolumeCapability := some ⟨.block⟩ } trace =
      NodePublishVolume h { req with VolumeCapability := some ⟨.mount []⟩ } trace := by
  unfold NodePublishVolume
  rfl

theorem any_isBlock_iff (volCaps : List VolumeCapability) :
    volCaps.any (fun cap => cap.isBlock) = true ↔ ∃ c ∈ volCaps, c.accessType = .block := by
  rw [List.any_eq_true]
  constructor
  · rintro ⟨c, hc, hb⟩
    refine ⟨c, hc, ?_⟩
    unfold VolumeCapability.isBlock at hb
    cases hat : c.accessType with
    | block => rfl
    | unset => rw [hat] at hb; cases hb
    | mount f => rw [hat] at hb; cases hb
  · rintro ⟨c, hc, hb⟩
    refine ⟨c, hc, ?_⟩
    unfold VolumeCapability.isBlock
    rw [hb]

theorem tryValidate_ne_none_iff (volCaps : List VolumeCapability) :
    tryValidateVolumeCapabilities volCaps ≠ none ↔
      (volCaps = [] ∨ ∃ c ∈ volCaps, c.accessType = .block) := by
  unfold tryValidateVolumeCapabilities
  by_cases hl : volCaps.length = 0
  · rw [if_pos hl]
    simp [List.length_eq_zero.mp hl]
  · rw [if_neg hl]
    have hne : volCaps ≠ [] := fun e => hl (by rw [e]; rfl)
    by_cases hb : volCaps.any (fun cap => cap.isBlock) = true
    · rw [if_pos hb]
      simp only [ne_eq, reduceCtorEq, not_false_eq_true, true_iff]
      exact Or.inr ((any_isBlock_iff volCaps).mp hb)
    · rw [if_neg hb]
      simp only [ne_eq, not_true_eq_false, false_iff, not_or]
      exact ⟨hne, fun hh => hb ((any_isBlock_iff volCaps).mpr hh)⟩

/-- C25: `tryValidateVolumeCapabilities` returns an error exactly when the
list is empty or holds a capability with the block access type;
`ValidateVolumeCapabilities` answers `InvalidArgument` when the volume id is
empty or `tryValidateVolumeCapabilities` fails, and otherwise confirms the
capability list of the request as it is. -/
theorem validateVolumeCapabilities_spec (req : ValidateVolumeCapabilitiesRequest) :
    (tryValidateVolumeCapabilities req.VolumeCapabilities ≠ none ↔
        (req.VolumeCapabilities = [] ∨
          ∃ c ∈ req.VolumeCapabilities, c.accessType = .block)) ∧
      ((req.VolumeId = "" ∨ tryValidateVolumeCapabilities req.VolumeCapabilities ≠ none) →
        ∃ msg : String, ValidateVolumeCapabilities req = .error ⟨.InvalidArgument, msg⟩) ∧
      (¬ (req.VolumeId = "" ∨ tryValidateVolumeCapabilities req.VolumeCapabilities ≠ none) →
        ValidateVolumeCapabilities req = .ok ⟨req.VolumeCapabilities, ""⟩) := by
  refine ⟨tryValidate_ne_none_iff _, ?_, ?_⟩
  · intro hh
    unfold ValidateVolumeCapabilities
    by_cases hv : req.VolumeId = ""
    · exact ⟨_, (by simp only [hv, if_true]; rfl)⟩
    · have ht := hh.resolve_left hv
      cases hc : tryValidateVolumeCapabilities req.VolumeCapabilities with
      | none => exact absurd hc ht
      | some e => exact ⟨_, (by simp only [hv, if_false, hc]; rfl)⟩
  · intro hh
    rw [not_or] at hh
    unfold ValidateVolumeCapabilities
    have ht : tryValidateVolumeCapabilities req.VolumeCapabilities = none := by
      by_contra hne
      exact hh.2 hne
    simp only [hh.1, if_false, ht]

theorem validateVolumeCapabilities_spec_witness :
    tryValidateVolumeCapabilities [] = some "volume capabilities cannot be empty" ∧
      tryValidateVolumeCapabilities [⟨.block⟩] = some "block volume is not supported" ∧
      tryValidateVolumeCapabilities [⟨.mount []⟩] = none ∧
      (∃ msg : String, ValidateVolumeCapabilities ⟨"testVolId", [⟨.mount []⟩, ⟨.block⟩]⟩ =
        .error ⟨.InvalidArgument, msg⟩) ∧
      ValidateVolumeCapabilities ⟨"testVolId", [⟨.mount []⟩]⟩ = .ok ⟨[⟨.mount []⟩], ""⟩ :=
  ⟨by decide, by decide, by decide,
    (validateVolumeCapabilities_spec ⟨"testVolId", [⟨.mount []⟩, ⟨.block⟩]⟩).2.1
      (Or.inr (by decide)),
    (validateVolumeCapabilities_spec ⟨"testVolId", [⟨.mount []⟩]⟩).2.2 (by decide)⟩

/-- C26: `AddProcessing x` and `RemoveProcessing x` leave `IsProcessing y` as
it is for every `y` other than `x`. -/
theorem guard_frame (i : Idempotency) (x y : String) (hxy : y ≠ x) :
    (i.AddProcessing x).IsProcessing y = i.IsProcessing y ∧
      (i.RemoveProcessing x).IsProcessing y = i.IsProcessing y :=
  ⟨isProcessing_add_ne i x y hxy, isProcessing_remove_ne i x y hxy⟩

theorem guard_frame_witness :
    ((⟨[("testVolumeId1", true)]⟩ : Idempotency).AddProcessing "testVolumeId2").IsProcessing
        "testVolumeId1" = true ∧
      ((⟨[("testVolumeId1", true)]⟩ : Idempotency).RemoveProcessing "testVolumeId2").IsProcessing
        "testVolumeId1" = true :=
  guard_frame ⟨[("testVolumeId1", true)]⟩ "testVolumeId2" "testVolumeId1" (by decide)

/-! ## The mount step of NodePublishVolume -/

theorem nodePublish_reaches_mount (h : Host) (req : NodePublishVolumeRequest)
    (trace trace1 : List Call) (perm : Nat) (hr : ReachesMount h req trace trace1 perm) :
    NodePublishVolume h req trace =
      publishMount h
        (req.VolumeContext.get serverKey ++ ":" ++
          filepathJoin ["/", stringsTrim (req.VolumeContext.get basedirKey) "/"])
        req.TargetPath (publishMountOpts req) perm true trace1 := by
  obtain ⟨hv, ht, hc, hp, hs, hb, hcase⟩ := hr
  unfold NodePublishVolume publishMountOpts
  cases hcap : req.VolumeCapability with
  | none => exact absurd hcap hc
  | some c =>
    simp only [if_neg hv, if_neg ht, hp, if_neg hs, if_neg hb, Host.call]
    rcases hcase with ⟨h1, h2, h3⟩ | ⟨e, h1, h2, h3, h4⟩
    · rw [h1, h2, h3]
    · rw [h1, h4]
      simp only [h2, if_true, h3, List.append_assoc, List.singleton_append]

theorem publishMount_mount_error (h : Host) (source targetPath : String)
    (mountOpts : List String) (perm : Nat) (trace : List Call) (e : HostErr)
    (he : (h.reply trace (.mount source targetPath "nfs" mountOpts)).err = some e) :
    ∃ msg : String, publishMount h source targetPath mountOpts perm true trace =
      (.error ⟨mountErrorCode e, msg⟩, trace ++ [.mount source targetPath "nfs" mountOpts]) := by
  unfold publishMount mountErrorCode
  simp only [Bool.not_true, Bool.false_eq_true, if_false, Host.call, he]
  by_cases hp : e.isPermission = true
  · exact ⟨_, (by simp only [hp, if_true]; rfl)⟩
  · by_cases hi : stringsContains e.msg "invalid argument" = true
    · exact ⟨_, (by simp only [hp, hi, if_true, if_false]; rfl)⟩
    · exact ⟨_, (by simp only [hp, hi, if_false]; rfl)⟩

theorem checkMountPermissions_trace (h : Host) (targetPath : String) (mode : Nat)
    (trace : List Call) :
    ∃ rest : List Call, (checkMountPermissions h targetPath mode trace).2 = trace ++ rest := by
  unfold checkMountPermissions
  simp only [Host.call]
  cases (h.reply trace (.lstat targetPath)).err with
  | some e2 => exact ⟨[.lstat targetPath], rfl⟩
  | none =>
    simp only []
    by_cases hm : (h.reply trace (.lstat targetPath)).mode % 512 ≠ mode
    · rw [if_pos hm]
      cases (h.reply (trace ++ [.lstat targetPath]) (.chmod targetPath mode)).err with
      | some e3 => exact ⟨[.lstat targetPath, .chmod targetPath mode], by simp⟩
      | none => exact ⟨[.lstat targetPath, .chmod targetPath mode], by simp⟩
    · rw [if_neg hm]
      exact ⟨[.lstat targetPath], rfl⟩

theorem publishMount_trace (h : Host) (source targetPath : String)
    (mountOpts : List String) (perm : Nat) (trace : List Call) :
    ∃ rest : List Call, (publishMount h source targetPath mountOpts perm true trace).2 =
      trace ++ (.mount source targetPath "nfs" mountOpts :: rest) := by
  unfold publishMount
  simp only [Bool.not_true, Bool.false_eq_true, if_false, Host.call]
  cases (h.reply trace (.mount source targetPath "nfs" mountOpts)).err with
  | some e =>
    simp only []
    by_cases hp : e.isPermission = true
    · exact ⟨[], by simp [hp]⟩
    · by_cases hi : stringsContains e.msg "invalid argument" = true
      · exact ⟨[], by simp [hp, hi]⟩
      · exact ⟨[], by simp [hp, hi]⟩
  | none =>
    simp only []
    by_cases hm : perm > 0
    · simp only [hm, if_true]
      obtain ⟨rest, hrest⟩ := checkMountPermissions_trace h targetPath perm
        (trace ++ [.mount source targetPath "nfs" mountOpts])
      rcases hc : checkMountPermissions h targetPath perm
        (trace ++ [.mount source targetPath "nfs" mountOpts]) with ⟨_ | e2, t2⟩
      · rw [hc] at hrest
        exact ⟨rest, (by rw [hc]; simpa using hrest)⟩
      · rw [hc] at hrest
        exact ⟨rest, (by rw [hc]; simpa using hrest)⟩
    · simp only [hm, if_false]
      exact ⟨[], rfl⟩

/-- C23: when `NodePublishVolume` reaches the mount step and `Mount` returns
the error `e`, the answer has the code of the class of `e` (permission first,
then a message with `invalid argument`, then `Internal`), the trace ends with
that one call of `Mount`, and it is the only call of `Mount` made. -/
theorem mount_error_classified (h : Host) (req : NodePublishVolumeRequest)
    (trace trace1 : List Call) (perm : Nat) (e : HostErr)
    (hr : ReachesMount h req trace trace1 perm)
    (he : (h.reply trace1 (.mount
      (req.VolumeContext.get serverKey ++ ":" ++
        filepathJoin ["/", stringsTrim (req.VolumeContext.get basedirKey) "/"])
      req.TargetPath "nfs" (publishMountOpts req))).err = some e) :
    (∃ msg : String, NodePublishVolume h req trace =
        (.error ⟨mountErrorCode e, msg⟩,
          trace1 ++ [.mount
            (req.VolumeContext.get serverKey ++ ":" ++
              filepathJoin ["/", stringsTrim (req.VolumeContext.get basedirKey) "/"])
            req.TargetPath "nfs" (publishMountOpts req)])) ∧
      (((NodePublishVolume h req trace).2.drop trace.length).countP Call.isMount = 1) ∧
      (mountErrorCode e = .PermissionDenied ↔ e.isPermission = true) ∧
      (mountErrorCode e = .InvalidArgument ↔
        (e.isPermission = false ∧ stringsContains e.msg "invalid argument" = true)) ∧
      (mountErrorCode e = .Internal ↔
        (e.isPermission = false ∧ stringsContains e.msg "invalid argument" = false)) := by
  obtain ⟨msg, hm⟩ := publishMount_mount_error h _ req.TargetPath (publishMountOpts req) perm
    trace1 e he
  have hn := nodePublish_reaches_mount h req trace trace1 perm hr
  refine ⟨⟨msg, by rw [hn, hm]⟩, ?_, ?_, ?_, ?_⟩
  · rw [hn, hm]
    obtain ⟨_, _, _, _, _, _, hcase⟩ := hr
    rcases hcase with ⟨_, _, h3⟩ | ⟨_, _, _, _, h4⟩
    · rw [h3]
      simp [Call.isMount]
    · rw [h4]
      simp [Call.isMount]
  · unfold mountErrorCode
    cases e.isPermission <;> cases stringsContains e.msg "invalid argument" <;> simp
  · unfold mountErrorCode
    cases e.isPermission <;> cases stringsContains e.msg "invalid argument" <;> simp
  · unfold mountErrorCode
    cases e.isPermission <;> cases stringsContains e.msg "invalid argument" <;> simp

theorem mount_error_classified_witness :
    ∃ msg : String,
      NodePublishVolume mountDeniedHost
          ⟨"testVolId", "/tmp/testTargetPath", some ⟨.mount []⟩, false,
            [("mountPermission", "0777"), ("server", "testServer"),
              ("basedir", "testBasePath")]⟩ [] =
        (.error ⟨.PermissionDenied, msg⟩,
          [.isLikelyNotMountPoint "/tmp/testTargetPath"] ++
            [.mount "testServer:/testBasePath" "/tmp/testTargetPath" "nfs" []]) :=
  (mount_error_classified mountDeniedHost
    ⟨"testVolId", "/tmp/testTargetPath", some ⟨.mount []⟩, false,
      [("mountPermission", "0777"), ("server", "testServer"), ("basedir", "testBasePath")]⟩
    [] [.isLikelyNotMountPoint "/tmp/testTargetPath"] 511
    ⟨"permission denied: invalid argument", false, true⟩
    ⟨by decide, by decide, by decide, by decide, by decide, by decide,
      Or.inl ⟨by decide, by decide, rfl⟩⟩
    (by decide)).1

/-! ## Lemmas on paths -/

theorem splitChars_single_append_sep (x : Char) (a b : List Char) :
    splitChars [x] 0 (a ++ x :: b) = splitChars [x] 0 a ++ splitChars [x] 0 b := by
  induction a with
  | nil => simp [splitChars_single_cons, splitChars]
  | cons c cs ih =>
    rw [List.cons_append, splitChars_single_cons, splitChars_single_cons, ih]
    by_cases hc : c = x
    · simp [hc]
    · rw [if_neg hc, if_neg hc]
      cases hs : splitChars [x] 0 cs with
      | nil => exact absurd hs (splitChars_single_ne_nil x cs)
      | cons hd tl => simp

theorem stringsSplit_slash (s : String) :
    stringsSplit s "/" = (splitChars ['/'] 0 s.data).map String.mk := by
  simp [stringsSplit]

theorem stringsJoin_two (a b sep : String) : stringsJoin [a, b] sep = a ++ sep ++ b := by
  apply String.ext
  simp [stringsJoin, joinChars, String.data_append]

theorem filepathJoin_two (a b : String) (ha : a ≠ "") :
    filepathJoin [a, b] = filepathClean (a ++ "/" ++ b) := by
  unfold filepathJoin
  have hd : List.dropWhile (fun e => decide (e = "")) [a, b] = [a, b] := by
    simp [List.dropWhile, ha]
  rw [hd]
  simp only []
  rw [stringsJoin_two]

theorem filepathClean_rooted (p : String) (rest : List Char) (hp : p.data = '/' :: rest) :
    filepathClean p =
      "/" ++ stringsJoin ((stringsSplit p "/").foldl (cleanStep true) []).reverse "/" := by
  unfold filepathClean
  have hne : p ≠ "" := by
    intro e
    rw [e] at hp
    cases hp
  have hh : p.data.head? = some '/' := by rw [hp]; rfl
  simp only [if_neg hne, hh, decide_True, if_true]

theorem cleanStep_empty (r : Bool) (st : List String) : cleanStep r st "" = st := by
  simp [cleanStep]

theorem cleanFold_filter (r : Bool) (l : List String) (st : List String) :
    l.foldl (cleanStep r) st = (l.filter (fun e => e ≠ "")).foldl (cleanStep r) st := by
  induction l generalizing st with
  | nil => rfl
  | cons e es ih =>
    by_cases he : e = ""
    · subst he
      rw [List.foldl_cons, cleanStep_empty, ih]
      simp
    · rw [List.foldl_cons, ih, List.filter_cons_of_pos (by simpa using he), List.foldl_cons]

theorem cleanFold_no_dotdot (r : Bool) (l : List String) (st : List String)
    (h : ∀ e ∈ l, e ≠ "..") :
    l.foldl (cleanStep r) st = (l.filter (fun e => e ≠ "" ∧ e ≠ ".")).reverse ++ st := by
  induction l generalizing st with
  | nil => rfl
  | cons e es ih =>
    have he : e ≠ ".." := h e (List.mem_cons_self _ _)
    have hes : ∀ x ∈ es, x ≠ ".." := fun x hx => h x (List.mem_cons_of_mem _ hx)
    rw [List.foldl_cons, ih _ hes]
    by_cases hk : e = "" ∨ e = "."
    · have hs : cleanStep r st e = st := by simp [cleanStep, hk]
      rw [hs, List.filter_cons_of_neg]
      simp only [ne_eq, decide_eq_true_eq, not_and, not_not]
      intro h1
      exact hk.resolve_left h1
    · have hs : cleanStep r st e = e :: st := by simp [cleanStep, hk, he]
      rw [not_or] at hk
      rw [hs, List.filter_cons_of_pos (by simpa using hk)]
      simp

theorem splitChars_joinChars (x : Char) (comps : List (List Char)) (hne : comps ≠ [])
    (h : ∀ c ∈ comps, x ∉ c) : splitChars [x] 0 (joinChars [x] comps) = comps := by
  induction comps with
  | nil => exact absurd rfl hne
  | cons a as ih =>
    cases as with
    | nil =>
      simp only [joinChars]
      exact splitChars_single_of_not_mem x a (h a (List.mem_cons_self _ _))
    | cons b bs =>
      rw [joinChars_cons_cons, List.append_assoc, List.singleton_append,
        splitChars_single_append x a _ (h a (List.mem_cons_self _ _)),
        ih (by simp) (fun c hc => h c (List.mem_cons_of_mem _ hc))]

theorem filepathJoin_root_head (b : String) :
    (filepathJoin ["/", b]).data.head? = some '/' := by
  rw [filepathJoin_two "/" b (by decide),
    filepathClean_rooted ("/" ++ "/" ++ b) ('/' :: b.data) (by simp [String.data_append])]
  simp [String.data_append]

theorem dropWhile_replicate_slash (n : Nat) (l : List Char) :
    (List.replicate n '/' ++ l).dropWhile (fun c => c == '/') =
      l.dropWhile (fun c => c == '/') := by
  induction n with
  | zero => simp
  | succ k ih => simp [List.replicate_succ, List.dropWhile_cons, ih]

theorem rdropWhile_replicate_slash (m : Nat) (l : List Char) :
    (l ++ List.replicate m '/').rdropWhile (fun c => c == '/') =
      l.rdropWhile (fun c => c == '/') := by
  induction m with
  | zero => simp
  | succ k ih =>
    rw [List.replicate_succ', ← List.append_assoc, List.rdropWhile_concat_pos _ _ _ (by simp), ih]

theorem isSlashTrim_unique (s t : String) (h : IsSlashTrim s t) : stringsTrim s "/" = t := by
  obtain ⟨n, m, hs, hh, hl⟩ := h
  apply String.ext
  rw [stringsTrim_slash_data, hs, List.append_assoc, dropWhile_replicate_slash]
  cases ht : t.data with
  | nil =>
    have : (([] : List Char) ++ List.replicate m '/').dropWhile (fun c => c == '/') = [] := by
      rw [List.dropWhile_eq_nil_iff]
      intro c hc
      simp at hc
      simp [hc.2]
    rw [this]
    rfl
  | cons c cs =>
    have hc : c ≠ '/' := by
      intro e
      apply hh
      rw [ht, e]
      rfl
    have hd : ((c :: cs) ++ List.replicate m '/').dropWhile (fun c => c == '/') =
        (c :: cs) ++ List.replicate m '/' := by
      rw [List.cons_append, List.dropWhile_cons]
      simp [hc]
    rw [hd, rdropWhile_replicate_slash, List.rdropWhile_eq_self_iff]
    intro hne
    intro hp
    apply hl
    rw [ht, List.getLast?_eq_getLast _ hne]
    simp at hp
    rw [hp]


/-- C24: when `NodePublishVolume` reaches the mount step, `Mount` is called
with the source `server:p`, where `p` is the cleaned join of `/` with `basedir`
stripped of its leading and trailing `/`; `p` begins with `/`, and two
`basedir` values with the same stripped form give the same `p`. -/
theorem mount_source (h : Host) (req : NodePublishVolumeRequest)
    (trace trace1 : List Call) (perm : Nat) (hr : ReachesMount h req trace trace1 perm) :
    (∃ rest : List Call, (NodePublishVolume h req trace).2 =
        trace1 ++ (.mount
          (req.VolumeContext.get "server" ++ ":" ++
            filepathJoin ["/", stringsTrim (req.VolumeContext.get "basedir") "/"])
          req.TargetPath "nfs" (publishMountOpts req) :: rest)) ∧
      (filepathJoin ["/", stringsTrim (req.VolumeContext.get "basedir") "/"]).data.head? =
        some '/' ∧
      ∀ basedir2 t : String, IsSlashTrim (req.VolumeContext.get "basedir") t →
        IsSlashTrim basedir2 t →
        filepathJoin ["/", stringsTrim basedir2 "/"] =
          filepathJoin ["/", stringsTrim (req.VolumeContext.get "basedir") "/"] := by
  refine ⟨?_, filepathJoin_root_head _, ?_⟩
  · rw [nodePublish_reaches_mount h req trace trace1 perm hr]
    exact publishMount_trace h _ _ _ _ _
  · intro b2 t h1 h2
    rw [isSlashTrim_unique _ _ h1, isSlashTrim_unique _ _ h2]

theorem mount_source_witness :
    ∃ rest : List Call,
      (NodePublishVolume okHost
          ⟨"testVolId", "/tmp/testTargetPath", some ⟨.mount []⟩, false,
            [("mountPermission", "0777"), ("server", "testServer"),
              ("basedir", "//exports/data/")]⟩ []).2 =
        [.isLikelyNotMountPoint "/tmp/testTargetPath"] ++
          (.mount ("testServer" ++ ":" ++ "/exports/data") "/tmp/testTargetPath" "nfs" [] ::
            rest) :=
  (mount_source okHost
    ⟨"testVolId", "/tmp/testTargetPath", some ⟨.mount []⟩, false,
      [("mountPermission", "0777"), ("server", "testServer"), ("basedir", "//exports/data/")]⟩
    [] [.isLikelyNotMountPoint "/tmp/testTargetPath"] 511
    ⟨by decide, by decide, by decide, by decide, by decide, by decide,
      Or.inl ⟨by decide, by decide, rfl⟩⟩).1

/-! ## The paths of CreateVolume and DeleteVolume -/

theorem nonEmptyElems_cons_slash (l : List Char) :
    ((splitChars ['/'] 0 ('/' :: l)).map String.mk).filter (fun e => e ≠ "") =
      ((splitChars ['/'] 0 l).map String.mk).filter (fun e => e ≠ "") := by
  rw [splitChars_single_cons, if_pos rfl, List.map_cons, List.filter_cons_of_neg]
  simp only [ne_eq, decide_eq_true_eq, not_not]

theorem nonEmptyElems_replicate_append (n : Nat) (l : List Char) :
    ((splitChars ['/'] 0 (List.replicate n '/' ++ l)).map String.mk).filter (fun e => e ≠ "") =
      ((splitChars ['/'] 0 l).map String.mk).filter (fun e => e ≠ "") := by
  induction n with
  | zero => simp
  | succ k ih => rw [List.replicate_succ, List.cons_append, nonEmptyElems_cons_slash, ih]

theorem nonEmptyElems_replicate (m : Nat) :
    ((splitChars ['/'] 0 (List.replicate m '/')).map String.mk).filter (fun e => e ≠ "") = [] := by
  have := nonEmptyElems_replicate_append m []
  rw [List.append_nil] at this
  rw [this]
  decide

theorem nonEmptyElems_append_replicate (m : Nat) (l : List Char) :
    ((splitChars ['/'] 0 (l ++ List.replicate m '/')).map String.mk).filter (fun e => e ≠ "") =
      ((splitChars ['/'] 0 l).map String.mk).filter (fun e => e ≠ "") := by
  cases m with
  | zero => simp
  | succ k =>
    rw [List.replicate_succ, splitChars_single_append_sep, List.map_append, List.filter_append,
      nonEmptyElems_replicate, List.append_nil]

theorem nonEmptyElems_slashTrim (d t : String) (h : IsSlashTrim d t) :
    ((splitChars ['/'] 0 d.data).map String.mk).filter (fun e => e ≠ "") =
      ((splitChars ['/'] 0 t.data).map String.mk).filter (fun e => e ≠ "") := by
  obtain ⟨n, m, hd, _, _⟩ := h
  rw [hd, List.append_assoc, nonEmptyElems_replicate_append, nonEmptyElems_append_replicate]

theorem filepathClean_join_slashTrim (a d t : String) (ar : List Char)
    (ha : a.data = '/' :: ar) (h : IsSlashTrim d t) :
    filepathClean (a ++ "/" ++ d) = filepathClean (a ++ "/" ++ t) := by
  have hp : ∀ x : String, (a ++ "/" ++ x).data = '/' :: (ar ++ '/' :: x.data) := by
    intro x
    simp [String.data_append, ha]
  have hsplit : ∀ x : String, (stringsSplit (a ++ "/" ++ x) "/").filter (fun e => e ≠ "") =
      ((splitChars ['/'] 0 a.data).map String.mk).filter (fun e => e ≠ "") ++
        ((splitChars ['/'] 0 x.data).map String.mk).filter (fun e => e ≠ "") := by
    intro x
    have hx : (a ++ "/" ++ x).data = a.data ++ '/' :: x.data := by
      simp [String.data_append]
    rw [stringsSplit_slash, hx, splitChars_single_append_sep, List.map_append,
      List.filter_append]
  rw [filepathClean_rooted _ _ (hp d), filepathClean_rooted _ _ (hp t),
    cleanFold_filter true (stringsSplit (a ++ "/" ++ d) "/"),
    cleanFold_filter true (stringsSplit (a ++ "/" ++ t) "/"),
    hsplit d, hsplit t, nonEmptyElems_slashTrim d t h]

theorem getTargetParentPath_eq (d : String) :
    getTargetParentPath d = filepathClean ("/tmp" ++ "/" ++ d) := by
  unfold getTargetParentPath nfsWorkingDir
  exact filepathJoin_two "/tmp" d (by decide)

theorem getTargetParentPath_rooted (d : String) :
    ∃ rest : List Char, (getTargetParentPath d).data = '/' :: rest := by
  rw [getTargetParentPath_eq,
    filepathClean_rooted ("/tmp" ++ "/" ++ d) ("tmp".data ++ '/' :: d.data)
      (by simp [String.data_append])]
  rw [String.data_append]
  exact ⟨_, rfl⟩

theorem getVolumtMountPath_eq (a d : String) (ar : List Char) (ha : a.data = '/' :: ar) :
    getVolumtMountPath a d = filepathClean (a ++ "/" ++ d) := by
  unfold getVolumtMountPath
  apply filepathJoin_two
  intro e
  rw [e] at ha
  cases ha

theorem paths_slashTrim (d t : String) (h : IsSlashTrim d t) :
    getTargetParentPath t = getTargetParentPath d ∧
      getVolumtMountPath (getTargetParentPath t) t =
        getVolumtMountPath (getTargetParentPath d) d := by
  have h1 : getTargetParentPath t = getTargetParentPath d := by
    rw [getTargetParentPath_eq, getTargetParentPath_eq]
    exact (filepathClean_join_slashTrim "/tmp" d t _ rfl h).symm
  refine ⟨h1, ?_⟩
  obtain ⟨rest, hr⟩ := getTargetParentPath_rooted d
  rw [h1, getVolumtMountPath_eq _ _ _ hr, getVolumtMountPath_eq _ _ _ hr]
  exact (filepathClean_join_slashTrim _ d t _ hr h).symm

theorem getVolIdFromParams_ne_empty (p : GoMap String) : getVolIdFromParams p ≠ "" := by
  rw [getVolIdFromParams_eq, stringsJoin3_eq_append]
  intro e
  have := congrArg String.length e
  simp only [String.length_append] at this
  have h1 : ("#" : String).length = 1 := by decide
  have h2 : ("" : String).length = 0 := by decide
  omega

/-- C28: for a parameter map whose `server`, `basedir` and `subdir` values hold
no `#`, the identifier decodes, and the target parent path and the volume mount
path computed from the decoded, `/`-trimmed `subdir` (as `DeleteVolume` does)
are those computed from the `subdir` of the map (as `CreateVolume` does). -/
theorem delete_recomputes_create_paths (p : GoMap String)
    (hs : '#' ∉ (p.get serverKey).data) (hb : '#' ∉ (p.get basedirKey).data)
    (hd : '#' ∉ (p.get subdirKey).data) :
    ∃ s b d : String,
      getParamsFromVolId (getVolIdFromParams p) = (s, b, d, none) ∧
        d = stringsTrim (p.get subdirKey) "/" ∧
        getTargetParentPath d = getTargetParentPath (p.get subdirKey) ∧
        getVolumtMountPath (getTargetParentPath d) d =
          getVolumtMountPath (getTargetParentPath (p.get subdirKey)) (p.get subdirKey) ∧
        deleteTargetParentPath (getVolIdFromParams p) =
          some (getTargetParentPath (p.get subdirKey)) := by
  have hdec : getParamsFromVolId (getVolIdFromParams p) =
      (stringsTrim (p.get serverKey) "/", stringsTrim (p.get basedirKey) "/",
        stringsTrim (p.get subdirKey) "/", none) := by
    rw [getVolIdFromParams_eq]
    exact getParams_join3 _ _ _ (not_mem_stringsTrim _ _ _ hs) (not_mem_stringsTrim _ _ _ hb)
      (not_mem_stringsTrim _ _ _ hd)
  have hpaths := paths_slashTrim (p.get subdirKey) _ (isSlashTrim_stringsTrim (p.get subdirKey))
  refine ⟨_, _, _, hdec, rfl, hpaths.1, hpaths.2, ?_⟩
  unfold deleteTargetParentPath
  rw [if_neg (getVolIdFromParams_ne_empty p), hdec]
  simp only []
  rw [hpaths.1]

theorem delete_recomputes_create_paths_witness :
    ∃ s b d : String,
      getParamsFromVolId (getVolIdFromParams
          [("server", "faleServer"), ("basedir", "fakeBaseDir"), ("subdir", "/fakeSubDir//")]) =
          (s, b, d, none) ∧
        d = "fakeSubDir" ∧
        getTargetParentPath d = getTargetParentPath "/fakeSubDir//" ∧
        getVolumtMountPath (getTargetParentPath d) d =
          getVolumtMountPath (getTargetParentPath "/fakeSubDir//") "/fakeSubDir//" ∧
        deleteTargetParentPath (getVolIdFromParams
          [("server", "faleServer"), ("basedir", "fakeBaseDir"), ("subdir", "/fakeSubDir//")]) =
          some "/tmp/fakeSubDir" :=
  delete_recomputes_create_paths
    [("server", "faleServer"), ("basedir", "fakeBaseDir"), ("subdir", "/fakeSubDir//")]
    (by decide) (by decide) (by decide)

/-! ## The volume mount path and the working root -/

theorem map_mk_map_data (l : List String) : (l.map String.data).map String.mk = l := by
  induction l with
  | nil => rfl
  | cons a as ih => simp [ih]

theorem keptElems_no_slash (subdir : String) :
    ∀ e ∈ (stringsSplit subdir "/").filter (fun e => e ≠ "" ∧ e ≠ "."), '/' ∉ e.data := by
  intro e he
  have hm := (List.mem_filter.mp he).1
  rw [stringsSplit_slash] at hm
  obtain ⟨c, hc, rfl⟩ := List.mem_map.mp hm
  exact splitChars_single_not_mem '/' subdir.data c hc

theorem targetParentPath_form (subdir : String)
    (hdd : ∀ e ∈ stringsSplit subdir "/", e ≠ "..") :
    getTargetParentPath subdir =
      "/" ++ stringsJoin
        ("tmp" :: (stringsSplit subdir "/").filter (fun e => e ≠ "" ∧ e ≠ ".")) "/" := by
  have hsplit : stringsSplit ("/tmp" ++ "/" ++ subdir) "/" =
      ["", "tmp"] ++ stringsSplit subdir "/" := by
    have hx : ("/tmp" ++ "/" ++ subdir).data = "/tmp".data ++ '/' :: subdir.data := by
      simp [String.data_append]
    rw [stringsSplit_slash, hx, splitChars_single_append_sep, List.map_append,
      ← stringsSplit_slash subdir]
    rfl
  rw [getTargetParentPath_eq,
    filepathClean_rooted ("/tmp" ++ "/" ++ subdir) ("tmp".data ++ '/' :: subdir.data)
      (by simp [String.data_append]),
    hsplit, cleanFold_no_dotdot]
  · simp
  · intro e he
    rcases List.mem_append.mp he with h1 | h1
    · simp at h1
      rcases h1 with rfl | rfl <;> decide
    · exact hdd e h1

theorem rootedJoin_data (elems : List String) :
    ("/" ++ stringsJoin elems "/").data = '/' :: joinChars ['/'] (elems.map String.data) := by
  rw [String.data_append]
  rfl

theorem volumeMountPath_form (subdir : String)
    (hdd : ∀ e ∈ stringsSplit subdir "/", e ≠ "..") :
    getVolumtMountPath (getTargetParentPath subdir) subdir =
      "/" ++ stringsJoin
        ("tmp" :: ((stringsSplit subdir "/").filter (fun e => e ≠ "" ∧ e ≠ ".") ++
          (stringsSplit subdir "/").filter (fun e => e ≠ "" ∧ e ≠ "."))) "/" := by
  have hE := keptElems_no_slash subdir
  have hEdd : ∀ e ∈ (stringsSplit subdir "/").filter (fun e => e ≠ "" ∧ e ≠ "."), e ≠ ".." :=
    fun e he => hdd e (List.mem_filter.mp he).1
  rw [targetParentPath_form subdir hdd]
  generalize hEdef : (stringsSplit subdir "/").filter (fun e => e ≠ "" ∧ e ≠ ".") = E at *
  have hdata := rootedJoin_data ("tmp" :: E)
  have hsplitJ : splitChars ['/'] 0 (joinChars ['/'] (("tmp" :: E).map String.data)) =
      ("tmp" :: E).map String.data := by
    apply splitChars_joinChars
    · simp
    · intro c hc
      obtain ⟨e, he, rfl⟩ := List.mem_map.mp hc
      rcases List.mem_cons.mp he with rfl | he
      · decide
      · exact hE e he
  have hsplit : stringsSplit ("/" ++ stringsJoin ("tmp" :: E) "/" ++ "/" ++ subdir) "/" =
      ("" :: "tmp" :: E) ++ stringsSplit subdir "/" := by
    have hx : ("/" ++ stringsJoin ("tmp" :: E) "/" ++ "/" ++ subdir).data =
        ("/" ++ stringsJoin ("tmp" :: E) "/").data ++ '/' :: subdir.data := by
      simp [String.data_append]
    rw [stringsSplit_slash, hx, splitChars_single_append_sep, List.map_append,
      ← stringsSplit_slash subdir, hdata, splitChars_single_cons, if_pos rfl, hsplitJ,
      List.map_cons, map_mk_map_data]
  rw [getVolumtMountPath_eq _ _ _ hdata,
    filepathClean_rooted _ (joinChars ['/'] (("tmp" :: E).map String.data) ++ '/' :: subdir.data)
      (by rw [String.data_append, String.data_append, hdata]; simp), hsplit,
    cleanFold_no_dotdot]
  · have hfE : E.filter (fun e => e ≠ "" ∧ e ≠ ".") = E := by
      rw [← hEdef, List.filter_filter]
      simp
    have hf : (("" :: "tmp" :: E) ++ stringsSplit subdir "/").filter
        (fun e => e ≠ "" ∧ e ≠ ".") = "tmp" :: (E ++ E) := by
      rw [List.filter_append, hEdef, List.filter_cons_of_neg (by decide),
        List.filter_cons_of_pos (by decide), hfE]
      rfl
    rw [hf]
    simp
  · intro e he
    rcases List.mem_append.mp he with h1 | h1
    · rcases List.mem_cons.mp h1 with rfl | h1
      · decide
      · rcases List.mem_cons.mp h1 with rfl | h1
        · decide
        · exact hEdd e h1
    · exact hdd e h1

theorem isStrictDescendant_tmp (elems : List String) (hne : elems ≠ [])
    (hslash : ∀ e ∈ elems, '/' ∉ e.data)
    (hgood : ∀ e ∈ elems, e ≠ "" ∧ e ≠ "." ∧ e ≠ "..") :
    isStrictDescendant "/tmp" ("/" ++ stringsJoin ("tmp" :: elems) "/") = true := by
  cases elems with
  | nil => exact absurd rfl hne
  | cons a as =>
    have hdata : ("/" ++ stringsJoin ("tmp" :: a :: as) "/").data =
        '/' :: 't' :: 'm' :: 'p' :: '/' :: joinChars ['/'] ((a :: as).map String.data) := by
      rw [rootedJoin_data]
      rfl
    unfold isStrictDescendant
    rw [hdata]
    have hp : ("/tmp".data ++ ['/']).isPrefixOf
        ('/' :: 't' :: 'm' :: 'p' :: '/' :: joinChars ['/'] ((a :: as).map String.data))
        = true := by
      simp [List.isPrefixOf]
    have hdrop : ('/' :: 't' :: 'm' :: 'p' :: '/' ::
        joinChars ['/'] ((a :: as).map String.data)).drop ("/tmp".data.length + 1) =
        joinChars ['/'] ((a :: as).map String.data) := rfl
    rw [hp, hdrop, splitChars_joinChars '/' _ (by simp)]
    · rw [Bool.true_and, List.all_eq_true]
      intro c hc
      obtain ⟨e, he, rfl⟩ := List.mem_map.mp hc
      obtain ⟨h1, h2, h3⟩ := hgood e he
      rw [decide_eq_true_iff]
      refine ⟨?_, ?_, ?_⟩
      · intro hd; exact h1 (String.ext hd)
      · intro hd; exact h2 (String.ext hd)
      · intro hd; exact h3 (String.ext hd)
    · intro c hc
      obtain ⟨e, he, rfl⟩ := List.mem_map.mp hc
      exact hslash e he

/-- C27 as stated fails: the `subdir` values `..` and `../etc` pass
`validateNfsParameters`, and the volume mount paths are `/` and `/etc`, which
are not below `/tmp`. -/
theorem mount_path_escapes_counterexample :
    validateNfsParameters [("server", "fakeServer"), ("basedir", "fakeBaseDir"),
        ("subdir", ".."), ("mountPermission", "0755")] = none ∧
      getVolumtMountPath (getTargetParentPath "..") ".." = "/" ∧
      isStrictDescendant nfsWorkingDir (getVolumtMountPath (getTargetParentPath "..") "..")
        = false ∧
      validateNfsParameters [("server", "fakeServer"), ("basedir", "fakeBaseDir"),
        ("subdir", "../etc"), ("mountPermission", "0755")] = none ∧
      getVolumtMountPath (getTargetParentPath "../etc") "../etc" = "/etc" ∧
      isStrictDescendant nfsWorkingDir
        (getVolumtMountPath (getTargetParentPath "../etc") "../etc") = false := by
  decide

/-- C27 amended: for a `subdir` value none of whose `/`-separated elements is
`..` and one of whose elements is neither empty nor `.`, the volume mount path
`getVolumtMountPath (getTargetParentPath subdir) subdir` is a strict descendant
of the working root `/tmp`. -/
theorem mount_path_under_root (subdir : String)
    (hdd : ∀ e ∈ stringsSplit subdir "/", e ≠ "..")
    (hne : ∃ e ∈ stringsSplit subdir "/", e ≠ "" ∧ e ≠ ".") :
    isStrictDescendant nfsWorkingDir
      (getVolumtMountPath (getTargetParentPath subdir) subdir) = true := by
  rw [volumeMountPath_form subdir hdd]
  apply isStrictDescendant_tmp
  · obtain ⟨e, he, hk⟩ := hne
    intro hnil
    have hmem : e ∈ (stringsSplit subdir "/").filter (fun e => e ≠ "" ∧ e ≠ ".") :=
      List.mem_filter.mpr ⟨he, by simpa using hk⟩
    have : e ∈ (stringsSplit subdir "/").filter (fun e => e ≠ "" ∧ e ≠ ".") ++
        (stringsSplit subdir "/").filter (fun e => e ≠ "" ∧ e ≠ ".") :=
      List.mem_append_left _ hmem
    rw [hnil] at this
    cases this
  · intro e he
    rcases List.mem_append.mp he with h1 | h1 <;> exact keptElems_no_slash subdir e h1
  · intro e he
    have h1 : e ∈ (stringsSplit subdir "/").filter (fun e => e ≠ "" ∧ e ≠ ".") := by
      rcases List.mem_append.mp he with h1 | h1 <;> exact h1
    have h2 := List.mem_filter.mp h1
    have h3 : e ≠ "" ∧ e ≠ "." := by simpa using h2.2
    exact ⟨h3.1, h3.2, hdd e h2.1⟩

theorem mount_path_under_root_witness :
    isStrictDescendant nfsWorkingDir
      (getVolumtMountPath (getTargetParentPath "/exports/./vol1/") "/exports/./vol1/") = true :=
  mount_path_under_root "/exports/./vol1/" (by decide) (by decide)

end SimpleCsi
